import Mathlib

/-!
# Verification of the heads-up poker engine

This development is a shallow embedding of the heads-up no-limit poker
implementation: the 7-card hand evaluator (`evaluate7`, `best5From7`,
`compareScore`, `getStraightHigh`), the authoritative host betting engine
(`MultiplayerHost`: `postBlinds`, `processAction`, `handleFold`,
`handleCheck`, `handleCall`, `handleBetRaise`, `advanceStreet`,
`resolveShowdown`, `startHand`) and the single-player betting functions
(`actCheck`, `actCall`, `actBetRaiseTo`, `startNewHand`).

Modelling conventions:
* JS numbers are modelled as `ℚ`; all chip amounts in the program are kept in
  hundredths of a big blind by `roundToHundredth`, and `Math.round x` is the
  exact `⌊x + 1/2⌋` (round half toward +∞), which is what JS computes.
* JS string formatting of numbers inside log texts is rendered with `toString`
  on `ℚ`; no theorem depends on the exact digits of a log text.
* The `id` field of a log item (a wall-clock string) and the broadcast calls
  are omitted: they carry no game-logic content.
* `Math.random()`-based dealing is replaced by an explicit `deal` parameter.
* JS `Map` iteration order is insertion order; wherever the code sorts with a
  total comparator afterwards the order of insertion is irrelevant, and the
  embedding builds the same sorted result from first-occurrence lists.
-/

/-- `Math.round (n * 100) / 100`: round to the nearest hundredth, halves
toward +∞, exactly as JS `roundToHundredth`. -/
def roundToHundredth (n : ℚ) : ℚ := (Rat.floor (n * 100 + 1/2) : ℚ) / 100

/-- `clamp(n, lo, hi) = Math.max(lo, Math.min(hi, n))`. -/
def clamp (n lo hi : ℚ) : ℚ := max lo (min hi n)

/-- A playing card, `{ rank: string; suit: string }`. -/
structure Card where
  rank : String
  suit : String
deriving DecidableEq, Repr

/-- `RANK_TO_VALUE`: rank string to numeric value; an unknown rank (which the
deck never produces) maps to the JS-undefined-like default `0`. -/
def RANK_TO_VALUE (r : String) : Int :=
  if r = "A" then 14 else if r = "K" then 13 else if r = "Q" then 12
  else if r = "J" then 11 else if r = "T" then 10 else if r = "9" then 9
  else if r = "8" then 8 else if r = "7" then 7 else if r = "6" then 6
  else if r = "5" then 5 else if r = "4" then 4 else if r = "3" then 3
  else if r = "2" then 2 else 0

/-- The tail of `compareScore` once the first vector is exhausted: each
remaining entry of the second vector is compared against the implicit
padding `0` (`a[i] ?? 0`). -/
def compareScoreNil : List Int → Int
  | [] => 0
  | b :: bs => if 0 > b then 1 else if 0 < b then -1 else compareScoreNil bs

/-- `compareScore`: lexicographic comparison of score vectors, the shorter one
implicitly padded with zeros (`a[i] ?? 0`); returns `1`, `-1` or `0`. The
index loop up to `max a.length b.length` is rendered as structural
recursion on the first vector. -/
def compareScore : List Int → List Int → Int
  | [], bs => compareScoreNil bs
  | a :: as, [] => if a > 0 then 1 else if a < 0 then -1 else compareScore as []
  | a :: as, b :: bs => if a > b then 1 else if a < b then -1 else compareScore as bs

/-- The scanning loop of `getStraightHigh`: index `i` over adjacent pairs,
`run` counts the current descending-by-one run; on the first run of length 5
it returns the run's high card `vals[i-3]` (mapping a high of `1` to `5`).
The loop advances `i` by one per step and stops once `i + 1 ≥ vals.length`,
so a step budget of `vals.length` covers the whole scan. -/
def straightScanFrom (vals : List Int) : Nat → Nat → Nat → Option Int
  | 0, _, _ => none
  | steps + 1, i, run =>
    if i + 1 < vals.length then
      if vals.getD i 0 - 1 = vals.getD (i + 1) 0 then
        if run + 1 ≥ 5 then
          let high := vals.getD (i - 3) 0
          some (if high = 1 then 5 else high)
        else straightScanFrom vals steps (i + 1) (run + 1)
      else straightScanFrom vals steps (i + 1) 1
    else none

/-- `getStraightHigh(valuesUniqueDesc)`: append an ace-low `1` when an ace is
present, then scan for the first (highest) run of 5 consecutive values. -/
def getStraightHigh (valuesUniqueDesc : List Int) : Option Int :=
  let vals :=
    if valuesUniqueDesc.headD 0 = 14 then valuesUniqueDesc ++ [1]
    else valuesUniqueDesc
  straightScanFrom vals vals.length 0 1

/-- Insert into a descending list (the effect of `.sort((a,b) => b - a)` on
integer lists; equal elements are indistinguishable). -/
def insertDesc (x : Int) : List Int → List Int
  | [] => [x]
  | y :: ys => if x ≥ y then x :: y :: ys else y :: insertDesc x ys

/-- `.sort((a,b) => b - a)` on a list of integers. -/
def sortDesc (l : List Int) : List Int := l.foldr insertDesc []

/-- First-occurrence deduplication with an accumulator of the values already
kept. -/
def dedupSeen (seen : List Int) : List Int → List Int
  | [] => []
  | x :: xs => if x ∈ seen then dedupSeen seen xs else x :: dedupSeen (x :: seen) xs

/-- First-occurrence deduplication, the effect of `new Set(list)`. -/
def dedupKeepFirst (l : List Int) : List Int := dedupSeen [] l

/-- Increment the count of `v` in an insertion-ordered count list (the
`counts` Map of `evaluate7`). -/
def bumpCount (l : List (Int × Nat)) (v : Int) : List (Int × Nat) :=
  match l with
  | [] => [(v, 1)]
  | (w, c) :: rest => if w = v then (w, c + 1) :: rest else (w, c) :: bumpCount rest v

/-- The `counts` Map of `evaluate7` as an insertion-ordered association list. -/
def countsList (values : List Int) : List (Int × Nat) := values.foldl bumpCount []

/-- The group comparator of `evaluate7`: descending count, ties broken by
descending value (`b.cnt !== a.cnt ? b.cnt - a.cnt : b.v - a.v`). -/
def groupBefore (a b : Int × Nat) : Bool :=
  if a.2 ≠ b.2 then decide (a.2 > b.2) else decide (a.1 > b.1)

/-- Insertion with `groupBefore` (the comparator keys are pairwise distinct,
so the sort result is order-independent). -/
def insertGroup (x : Int × Nat) : List (Int × Nat) → List (Int × Nat)
  | [] => [x]
  | y :: ys => if groupBefore x y then x :: y :: ys else y :: insertGroup x ys

/-- The `groups` array of `evaluate7`: counts sorted by count then value,
both descending. -/
def sortGroups (l : List (Int × Nat)) : List (Int × Nat) := l.foldr insertGroup []

/-- Append a card's value to its suit's list, the `suits` Map update of
`evaluate7` (insertion-ordered suits, values pushed in card order). -/
def addSuit (l : List (String × List Int)) (c : Card) : List (String × List Int) :=
  match l with
  | [] => [(c.suit, [RANK_TO_VALUE c.rank])]
  | (s, vs) :: rest =>
    if s = c.suit then (s, vs ++ [RANK_TO_VALUE c.rank]) :: rest
    else (s, vs) :: addSuit rest c

/-- The `suits` Map of `evaluate7` as an insertion-ordered association list. -/
def suitsList (cards : List Card) : List (String × List Int) := cards.foldl addSuit []

/-- The flush-detection loop of `evaluate7`: the first suit with ≥ 5 cards,
replaced by a later suit only on a strictly greater sorted value vector. -/
def pickFlush (entries : List (String × List Int)) : Option String × List Int :=
  entries.foldl
    (fun acc e =>
      if e.2.length ≥ 5 then
        let sorted := sortDesc e.2
        if acc.1 = none ∨ compareScore sorted acc.2 > 0 then (some e.1, sorted) else acc
      else acc)
    (none, [])

/-- `evaluate7`: score a 5–7 card hand as a vector of integers, category
first (8 straight flush … 0 high card), translated branch by branch from the
source. -/
def evaluate7 (cards : List Card) : List Int :=
  let rawValues := cards.map (fun c => RANK_TO_VALUE c.rank)
  let values := sortDesc rawValues
  let groups := sortGroups (countsList rawValues)
  let fl := pickFlush (suitsList cards)
  let flushSuit := fl.1
  let flushValsDesc := fl.2
  let uniqueDesc := sortDesc (dedupKeepFirst values)
  let straightHigh := getStraightHigh uniqueDesc
  let g0 := groups.headD (0, 0)
  let sfScore : Option (List Int) :=
    if flushSuit.isSome then
      (getStraightHigh (sortDesc (dedupKeepFirst flushValsDesc))).map (fun h => [8, h])
    else none
  let quadScore : Option (List Int) :=
    if g0.2 = 4 then
      some [7, g0.1, (uniqueDesc.find? (fun v => v ≠ g0.1)).getD 0]
    else none
  let fullHouseScore : Option (List Int) :=
    if g0.2 = 3 then
      (groups.find? (fun g => g.1 ≠ g0.1 ∧ g.2 ≥ 2)).map (fun pc => [6, g0.1, pc.1])
    else none
  let flushScore : Option (List Int) :=
    if flushSuit.isSome then some (5 :: flushValsDesc.take 5) else none
  let straightScore : Option (List Int) := straightHigh.map (fun h => [4, h])
  let tripsScore : Option (List Int) :=
    if g0.2 = 3 then
      some (3 :: g0.1 :: (uniqueDesc.filter (fun v => v ≠ g0.1)).take 2)
    else none
  let twoPairScore : Option (List Int) :=
    if g0.2 = 2 then
      let pairs := (groups.filter (fun g => g.2 = 2)).map (fun g => g.1)
      if pairs.length ≥ 2 then
        let sorted := sortDesc pairs
        let highPair := sorted.headD 0
        let lowPair := sorted.getD 1 0
        some [2, highPair, lowPair,
          (uniqueDesc.find? (fun v => v ≠ highPair ∧ v ≠ lowPair)).getD 0]
      else none
    else none
  let pairScore : Option (List Int) :=
    if g0.2 = 2 then
      some (1 :: g0.1 :: (uniqueDesc.filter (fun v => v ≠ g0.1)).take 3)
    else none
  ((((((((sfScore).or quadScore).or fullHouseScore).or flushScore).or
      straightScore).or tripsScore).or twoPairScore).or pairScore).getD
    (0 :: uniqueDesc.take 5)

/-- The index range `[lo, hi)` of a JS `for` loop. -/
def rangeFromTo (lo hi : Nat) : List Nat := (List.range hi).drop lo

/-- The 5-nested index loops of `best5From7`, in source iteration order. -/
def combos5 (n : Nat) : List (Nat × Nat × Nat × Nat × Nat) :=
  (rangeFromTo 0 (n - 4)).foldr
    (fun a acc₁ =>
      (rangeFromTo (a + 1) (n - 3)).foldr
        (fun b acc₂ =>
          (rangeFromTo (b + 1) (n - 2)).foldr
            (fun c acc₃ =>
              (rangeFromTo (c + 1) (n - 1)).foldr
                (fun d acc₄ =>
                  (rangeFromTo (d + 1) n).foldr
                    (fun e acc₅ => (a, b, c, d, e) :: acc₅) acc₄)
                acc₃)
            acc₂)
        acc₁)
    []

/-- A dummy card for `getD` on indices that the `combos5` bounds keep in
range; it is never actually selected. -/
def dummyCard : Card := ⟨"", ""⟩

/-- `best5From7`: enumerate every 5-card index combination, score each with
`evaluate7`, and keep the first strictly-best hand. -/
def best5From7 (all : List Card) : List Card :=
  let step := fun (st : Option (List Int) × List Card) (ix : Nat × Nat × Nat × Nat × Nat) =>
    let hand := [all.getD ix.1 dummyCard, all.getD ix.2.1 dummyCard,
      all.getD ix.2.2.1 dummyCard, all.getD ix.2.2.2.1 dummyCard,
      all.getD ix.2.2.2.2 dummyCard]
    let score := evaluate7 hand
    match st.1 with
    | none => (some score, hand)
    | some best => if compareScore score best > 0 then (some score, hand) else st
  ((combos5 all.length).foldl step (none, [])).2

/-! ## The authoritative host betting engine (`MultiplayerHost`) -/

/-- One of the two seats (`"top"`/`"bottom"` in the source). -/
inductive Seat
  | top
  | bottom
deriving DecidableEq, Repr

/-- The opposite seat (`seat === "top" ? "bottom" : "top"`). -/
def Seat.other : Seat → Seat
  | .top => .bottom
  | .bottom => .top

/-- A per-seat record, the `{ top: …; bottom: … }` objects of the source. -/
structure SeatMap (α : Type) where
  top : α
  bottom : α
deriving DecidableEq, Repr

/-- Bracket read `m[seat]`. -/
def SeatMap.get {α : Type} (m : SeatMap α) : Seat → α
  | .top => m.top
  | .bottom => m.bottom

/-- Bracket write `m[seat] = v`. -/
def SeatMap.set {α : Type} (m : SeatMap α) : Seat → α → SeatMap α
  | .top, v => { m with top := v }
  | .bottom, v => { m with bottom := v }

/-- The chip ledger `GameState`: stacks, current-street bets, and pot. -/
structure GameState where
  stacks' : SeatMap ℚ
  bets : SeatMap ℚ
  pot : ℚ
deriving DecidableEq, Repr

/-- Hand status `"playing" | "ended"`. -/
inductive HandStatus
  | playing
  | ended
deriving DecidableEq, Repr

/-- Hand winner `Seat | "tie"`. -/
inductive Winner
  | seat (s : Seat)
  | tie
deriving DecidableEq, Repr

/-- Hand end reason `"fold" | "showdown"`. -/
inductive EndReason
  | fold
  | showdown
deriving DecidableEq, Repr

/-- The `handResult` record. -/
structure HandResult where
  status : HandStatus
  winner : Option Winner
  reason : Option EndReason
  message : String
deriving DecidableEq, Repr

/-- An action-log entry (the wall-clock `id` string is omitted: it carries no
game content). -/
structure ActionLogItem where
  sequence : Nat
  street : String
  seat : Seat
  text : String
deriving DecidableEq, Repr

/-- The closed `GameAction` union. -/
inductive GameAction
  | fold
  | check
  | call
  | betRaiseTo (t : ℚ)
deriving DecidableEq, Repr

/-- The complete authoritative `HostState` of the host controller. -/
structure HostState where
  game : GameState
  street : Nat
  toAct : Seat
  cards : Option (List Card)
  handId : Nat
  dealerOffset : Nat
  dealerSeat : Seat
  gameSession : Nat
  actionLog : List ActionLogItem
  actionSequence : Nat
  handResult : HandResult
  gameOver : Bool
  blindsPosted : Bool
  lastRaiseSize : ℚ
  lastAggressor : Option Seat
  actionsThisStreet : Nat
  checked : SeatMap Bool
  oppRevealed : Bool
  youMucked : Bool
  canShowTop : Bool
  canShowBottom : Bool
  topShowed : Bool
  bottomShowed : Bool
  handStartStacks : SeatMap ℚ
deriving DecidableEq, Repr

/-- Small blind, `0.5` bb. -/
def SB : ℚ := 1/2

/-- Big blind, `1` bb. -/
def BB : ℚ := 1

/-- `GAME_CONFIG.STARTING_STACK_BB`. -/
def STARTING_STACK_BB : ℚ := 25

/-- `GAME_CONFIG.BLINDS_INCREASE_EVERY_N_HANDS`. -/
def BLINDS_INCREASE_EVERY_N_HANDS : Nat := 5

/-- `getStreetName`. -/
def getStreetName (street : Nat) : String :=
  if street = 0 then "Preflop"
  else if street = 3 then "Flop"
  else if street = 4 then "Turn"
  else "River"

/-- `logAction`: append an entry with the current sequence number and bump
the sequence counter. -/
def logAction (seat : Seat) (text : String) (s : HostState) : HostState :=
  { s with
    actionLog := s.actionLog ++
      [{ sequence := s.actionSequence, street := getStreetName s.street, seat := seat,
         text := text }],
    actionSequence := s.actionSequence + 1 }

/-- `rank + suit`, the card string used in log texts. -/
def cardText (c : Card) : String := c.rank ++ c.suit

/-- The dealer seat as recomputed inside the handlers
(`dealerOffset === 0 ? "top" : "bottom"`). -/
def dealerOf (s : HostState) : Seat := if s.dealerOffset = 0 then .top else .bottom

/-- `createInitialState`. -/
def createInitialState (initialDealerOffset : Nat) : HostState :=
  let initialDealerSeat : Seat := if initialDealerOffset = 0 then .top else .bottom
  { game :=
      { stacks' := ⟨STARTING_STACK_BB, STARTING_STACK_BB⟩, bets := ⟨0, 0⟩, pot := 0 },
    street := 0, toAct := initialDealerSeat, cards := none, handId := 0,
    dealerOffset := initialDealerOffset, dealerSeat := initialDealerSeat, gameSession := 0,
    actionLog := [], actionSequence := 0,
    handResult := { status := .playing, winner := none, reason := none, message := "" },
    gameOver := false, blindsPosted := false, lastRaiseSize := BB, lastAggressor := none,
    actionsThisStreet := 0, checked := ⟨false, false⟩, oppRevealed := false,
    youMucked := false, canShowTop := false, canShowBottom := false, topShowed := false,
    bottomShowed := false, handStartStacks := ⟨STARTING_STACK_BB, STARTING_STACK_BB⟩ }

/-- `postBlinds`: each blind is capped at the seat's available stack. -/
def postBlinds (s : HostState) : HostState :=
  let dealerSeat := dealerOf s
  let nonDealerSeat := dealerSeat.other
  let actualSB := min SB (s.game.stacks'.get dealerSeat)
  let actualBB := min BB (s.game.stacks'.get nonDealerSeat)
  let g :=
    { s.game with
      bets := (s.game.bets.set dealerSeat (roundToHundredth actualSB)).set nonDealerSeat
        (roundToHundredth actualBB),
      stacks' := (s.game.stacks'.set dealerSeat
          (roundToHundredth (s.game.stacks'.get dealerSeat - actualSB))).set nonDealerSeat
        (roundToHundredth (s.game.stacks'.get nonDealerSeat - actualBB)) }
  let s1 := { s with game := g, toAct := dealerSeat }
  let s2 := logAction dealerSeat ("Posts SB " ++ toString actualSB ++ "bb") s1
  let s3 := logAction nonDealerSeat ("Posts BB " ++ toString actualBB ++ "bb") s2
  { s3 with blindsPosted := true }

/-- The board revealed at showdown: `cards.slice(4, 9)` cut to `street`
cards. -/
def showdownBoard (s : HostState) : List Card :=
  (((s.cards.getD []).drop 4).take 5).take s.street

/-- The top seat's hole cards, `cards.slice(0, 2)`. -/
def topHoleCards (s : HostState) : List Card := (s.cards.getD []).take 2

/-- The bottom seat's hole cards, `cards.slice(2, 4)`. -/
def bottomHoleCards (s : HostState) : List Card := ((s.cards.getD []).drop 2).take 2

/-- The showdown comparison `compareScore(bottomScore, topScore)` of
`resolveShowdown`. -/
def showdownCmp (s : HostState) : Int :=
  compareScore (evaluate7 (bottomHoleCards s ++ showdownBoard s))
    (evaluate7 (topHoleCards s ++ showdownBoard s))

/-- The winner decided by `resolveShowdown` from the score comparison. -/
def showdownWinner (s : HostState) : Winner :=
  let cmp := showdownCmp s
  if cmp > 0 then .seat .bottom else if cmp < 0 then .seat .top else .tie

/-- The reveal/muck bookkeeping phase of `resolveShowdown` (show order,
`oppRevealed`/`youMucked`, the `canShow*` flags and the show/muck log
entries). -/
def showdownReveals (winner : Winner) (s1 : HostState) : HostState :=
  let nonDealerSeat := (dealerOf s1).other
  let riverCheckedThrough :=
    s1.checked.top = true ∧ s1.checked.bottom = true ∧ s1.lastAggressor = none
  let firstToShow : Seat :=
    if riverCheckedThrough then nonDealerSeat else s1.lastAggressor.getD nonDealerSeat
  let secondToShow := firstToShow.other
  let someoneAllIn := s1.game.stacks'.top ≤ 0 ∨ s1.game.stacks'.bottom ≤ 0
  let secondShows := someoneAllIn ∨ winner = .tie ∨ winner = .seat secondToShow
  let topShows := firstToShow = .top ∨ (secondToShow = .top ∧ secondShows)
  let bottomShows := firstToShow = .bottom ∨ (secondToShow = .bottom ∧ secondShows)
  let s2 := { s1 with oppRevealed := decide topShows, youMucked := ! decide bottomShows }
  let s3 :=
    if winner = .tie then { s2 with canShowTop := false, canShowBottom := false }
    else { s2 with
      canShowTop := decide (winner ≠ .seat .top ∧ ¬ topShows),
      canShowBottom := decide (winner ≠ .seat .bottom ∧ ¬ bottomShows) }
  let s4 := { s3 with topShowed := false, bottomShowed := false }
  let topCards := topHoleCards s1
  let bottomCards := bottomHoleCards s1
  let topCardStr :=
    if topCards.length = 2 then
      cardText (topCards.getD 0 dummyCard) ++ " " ++ cardText (topCards.getD 1 dummyCard)
    else ""
  let bottomCardStr :=
    if bottomCards.length = 2 then
      cardText (bottomCards.getD 0 dummyCard) ++ " " ++ cardText (bottomCards.getD 1 dummyCard)
    else ""
  let s5 :=
    if firstToShow = .top ∧ topCardStr ≠ "" then logAction .top ("Shows " ++ topCardStr) s4
    else if firstToShow = .bottom ∧ bottomCardStr ≠ "" then
      logAction .bottom ("Shows " ++ bottomCardStr) s4
    else s4
  if secondShows then
    if secondToShow = .top ∧ topCardStr ≠ "" then logAction .top ("Shows " ++ topCardStr) s5
    else if secondToShow = .bottom ∧ bottomCardStr ≠ "" then
      logAction .bottom ("Shows " ++ bottomCardStr) s5
    else s5
  else logAction secondToShow "Mucked" s5

/-- The payout phase of `resolveShowdown`: a tie splits the pot exactly in
half, otherwise the winner takes it all; then the pot and bets are zeroed and
`gameOver` is set if a stack is ≤ 0. -/
def showdownPayout (winner : Winner) (s6 : HostState) : HostState :=
  let s7 :=
    if winner = .tie then
      let potSize := s6.game.pot + s6.game.bets.top + s6.game.bets.bottom
      let half := potSize / 2
      let g := { s6.game with stacks' :=
        (⟨s6.game.stacks'.top + half, s6.game.stacks'.bottom + half⟩ : SeatMap ℚ) }
      let sA := { s6 with game := g }
      let sB := logAction .top ("Split pot " ++ toString half ++ "bb (Showdown)") sA
      logAction .bottom ("Split pot " ++ toString half ++ "bb (Showdown)") sB
    else
      let potSize := s6.game.pot + s6.game.bets.top + s6.game.bets.bottom
      let winnerSeat : Seat := if winner = .seat .bottom then .bottom else .top
      let g := { s6.game with
        stacks' := s6.game.stacks'.set winnerSeat (s6.game.stacks'.get winnerSeat + potSize) }
      let sA := { s6 with game := g }
      logAction winnerSeat ("Wins " ++ toString potSize ++ "bb (Showdown)") sA
  let s8 := { s7 with game := { s7.game with pot := 0, bets := ⟨0, 0⟩ } }
  if s8.game.stacks'.top ≤ 0 ∨ s8.game.stacks'.bottom ≤ 0 then { s8 with gameOver := true }
  else s8

/-- `resolveShowdown`: evaluate both 7-card hands, record the winner, order
the reveals, and pay out the pot; the source method is split here into the
sequenced phases `showdownWinner`, `showdownReveals` and `showdownPayout`. -/
def resolveShowdown (s : HostState) : HostState :=
  let winner := showdownWinner s
  let s1 := { s with handResult :=
    ({ status := .ended, winner := some winner, reason := some .showdown,
       message :=
         if winner = .seat .bottom then "You win"
         else if winner = .seat .top then "Opponent wins" else "Tie" } : HandResult) }
  showdownPayout winner (showdownReveals winner s1)

/-- `advanceStreet`: pull the bets into the pot, deal the next street (an
all-in runs the board out to the river), or go to showdown after the
river. -/
def advanceStreet (s : HostState) : HostState :=
  let g := { s.game with
    pot := s.game.pot + s.game.bets.top + s.game.bets.bottom, bets := ⟨0, 0⟩ }
  let s1 := { s with game := g }
  let someoneAllIn := s1.game.stacks'.top ≤ 0 ∨ s1.game.stacks'.bottom ≤ 0
  if s1.street = 0 ∨ s1.street = 3 ∨ s1.street = 4 then
    let s2 := { s1 with
      street := if s1.street = 0 then 3 else if s1.street = 3 then 4 else 5 }
    if someoneAllIn ∧ s2.street < 5 then resolveShowdown { s2 with street := 5 }
    else
      { s2 with
        checked := ⟨false, false⟩, lastAggressor := none, actionsThisStreet := 0,
        lastRaiseSize := BB, toAct := (dealerOf s2).other }
  else resolveShowdown s1

/-- `handleFold`: the opponent wins the whole pot at once. -/
def handleFold (seat : Seat) (s : HostState) : HostState :=
  let winner : Seat := seat.other
  let s1 : HostState := logAction seat "Folds" s
  let potSize : ℚ := s1.game.pot + s1.game.bets.top + s1.game.bets.bottom
  let winnerName : String := if winner = .bottom then "You" else "Opponent"
  let s2 : HostState := { s1 with handResult :=
    ({ status := .ended, winner := some (Winner.seat winner), reason := some .fold,
       message := winnerName ++ " wins" } : HandResult) }
  let g : GameState := { s2.game with
    stacks' := s2.game.stacks'.set winner (s2.game.stacks'.get winner + potSize),
    pot := 0, bets := ⟨0, 0⟩ }
  let s3 : HostState := { s2 with game := g }
  let s4 : HostState := logAction winner ("Wins " ++ toString potSize ++ "bb") s3
  let s5 : HostState := { s4 with
    canShowTop := true, canShowBottom := true, topShowed := false,
    bottomShowed := false }
  if s5.game.stacks'.top ≤ 0 ∨ s5.game.stacks'.bottom ≤ 0 then { s5 with gameOver := true }
  else s5

/-- `handleCheck` (the host applies no legality guard here). -/
def handleCheck (seat : Seat) (s : HostState) : HostState :=
  let s1 := logAction seat "Checks" s
  let s2 := { s1 with
    checked := s1.checked.set seat true,
    actionsThisStreet := s1.actionsThisStreet + 1 }
  let otherSeat := seat.other
  let bothChecked := s2.checked.top = true ∧ s2.checked.bottom = true
  let betsEqual := s2.game.bets.top = s2.game.bets.bottom
  let enoughActions := s2.actionsThisStreet ≥ 2
  if bothChecked ∨ (betsEqual ∧ enoughActions) then advanceStreet s2
  else { s2 with toAct := otherSeat }

/-- The amount a call commits: `min(toCall, stack)` with the source's
roundings (`toCall = round(bets[other] - bets[seat])`). -/
def callAmount (seat : Seat) (g : GameState) : ℚ :=
  roundToHundredth
    (min (roundToHundredth (g.bets.get seat.other - g.bets.get seat)) (g.stacks'.get seat))

/-- The chip movement of `handleCall`: commit the call; if it was short
(all-in), refund the bettor's unmatched excess. -/
def callChips (seat : Seat) (g : GameState) : GameState :=
  let otherSeat : Seat := seat.other
  let toCall : ℚ := roundToHundredth (g.bets.get otherSeat - g.bets.get seat)
  let actualCall : ℚ := roundToHundredth (min toCall (g.stacks'.get seat))
  let g1 : GameState := { g with
    bets := g.bets.set seat (roundToHundredth (g.bets.get seat + actualCall)),
    stacks' := g.stacks'.set seat (roundToHundredth (g.stacks'.get seat - actualCall)) }
  if actualCall < toCall then
    let refund : ℚ := roundToHundredth (g1.bets.get otherSeat - g1.bets.get seat)
    { g1 with
      bets := g1.bets.set otherSeat (roundToHundredth (g1.bets.get otherSeat - refund)),
      stacks' := g1.stacks'.set otherSeat (roundToHundredth (g1.stacks'.get otherSeat + refund)) }
  else g1

/-- `handleCall`: apply `callChips`; an all-in reveals the cards; preflop,
an unraised small-blind call gives the big blind the option, otherwise the
call completes the street. -/
def handleCall (seat : Seat) (s : HostState) : HostState :=
  let otherSeat : Seat := seat.other
  let actualCall : ℚ := callAmount seat s.game
  let s1 : HostState := { s with game := callChips seat s.game }
  let s2 : HostState := logAction seat ("Calls " ++ toString actualCall ++ "bb") s1
  let s3 : HostState := { s2 with actionsThisStreet := s2.actionsThisStreet + 1 }
  let s4 : HostState := { s3 with
    oppRevealed :=
      if s3.game.stacks'.get seat ≤ 0 ∨ s3.game.stacks'.get otherSeat ≤ 0 then true
      else s3.oppRevealed }
  if s4.street = 0 then
    if seat = dealerOf s4 ∧ s4.lastAggressor = none then { s4 with toAct := otherSeat }
    else advanceStreet s4
  else advanceStreet s4

/-- `handleBetRaise`: the amount is capped only at the acting seat's total
chips; `lastRaiseSize` records the raise increment. -/
def handleBetRaise (seat : Seat) (amount : ℚ) (s : HostState) : HostState :=
  let otherSeat := seat.other
  let currentBet := s.game.bets.get seat
  let otherCurrentBet := s.game.bets.get otherSeat
  let maxPossible := currentBet + s.game.stacks'.get seat
  let cappedAmount := min amount maxPossible
  let betAmount := cappedAmount - currentBet
  let g := { s.game with
    bets := s.game.bets.set seat (roundToHundredth cappedAmount),
    stacks' := s.game.stacks'.set seat (roundToHundredth (s.game.stacks'.get seat - betAmount)) }
  let s1 := { s with game := g }
  let actionText :=
    if otherCurrentBet > currentBet then "Raises to " ++ toString amount ++ "bb"
    else "Bets " ++ toString amount ++ "bb"
  let s2 := logAction seat actionText s1
  { s2 with
    lastAggressor := some seat,
    lastRaiseSize :=
      if otherCurrentBet > currentBet then cappedAmount - otherCurrentBet else cappedAmount,
    actionsThisStreet := s2.actionsThisStreet + 1,
    checked := ⟨false, false⟩,
    toAct := otherSeat }

/-- `handleShowHand`: a seat flagged as allowed to show reveals once. -/
def handleShowHand (seat : Seat) (s : HostState) : HostState :=
  if seat = .top ∧ s.canShowTop = false then s
  else if seat = .bottom ∧ s.canShowBottom = false then s
  else if seat = .top ∧ s.topShowed = true then s
  else if seat = .bottom ∧ s.bottomShowed = true then s
  else
    let s1 := if seat = .top then { s with topShowed := true } else { s with bottomShowed := true }
    let cs :=
      if seat = .top then (s1.cards.getD []).take 2 else ((s1.cards.getD []).drop 2).take 2
    if cs.length = 2 then
      logAction seat
        ("Shows " ++ cardText (cs.getD 0 dummyCard) ++ " " ++ cardText (cs.getD 1 dummyCard)) s1
    else s1

/-- `processAction`: reject (no-op) unless it is `seat`'s turn and the hand
is still playing, then dispatch to the matching handler. -/
def processAction (seat : Seat) (action : GameAction) (s : HostState) : HostState :=
  if s.toAct ≠ seat then s
  else if s.handResult.status ≠ .playing then s
  else
    match action with
    | .fold => handleFold seat s
    | .check => handleCheck seat s
    | .call => handleCall seat s
    | .betRaiseTo t => handleBetRaise seat t s

/-- `startHand`: bump the hand id, flip the dealer, apply the periodic blind
level (stacks' scaled by 0.75), snapshot the start stacks', deal (the dealt
cards are a parameter in place of `Math.random`), reset the per-hand state
and post blinds. -/
def startHand (deal : List Card) (s : HostState) : HostState :=
  let hasPlayedAHand := s.actionLog.length > 0
  let s1 := if s.handId > 0 ∨ hasPlayedAHand then { s with handId := s.handId + 1 } else s
  let s2 :=
    if s1.handId > 0 then
      let off : Nat := if s1.dealerOffset = 0 then 1 else 0
      { s1 with
        dealerOffset := off,
        dealerSeat := if off = 0 then Seat.top else Seat.bottom }
    else s1
  let s3 :=
    if s2.handId > 0 ∧ s2.handId % BLINDS_INCREASE_EVERY_N_HANDS = 0 then
      { s2 with game := { s2.game with stacks' :=
        (⟨roundToHundredth (s2.game.stacks'.top * (3/4)),
          roundToHundredth (s2.game.stacks'.bottom * (3/4))⟩ : SeatMap ℚ) } }
    else s2
  let s4 := { s3 with
    handStartStacks := (⟨s3.game.stacks'.top, s3.game.stacks'.bottom⟩ : SeatMap ℚ),
    cards := some deal,
    handResult := ({ status := .playing, winner := none, reason := none,
                     message := "" } : HandResult),
    actionLog := [], actionSequence := 0, street := 0, lastAggressor := none,
    actionsThisStreet := 0, checked := ⟨false, false⟩, oppRevealed := false,
    youMucked := false, canShowTop := false, canShowBottom := false, topShowed := false,
    bottomShowed := false, lastRaiseSize := BB }
  postBlinds s4

/-- The guarded next-hand operation: the auto-advance timer callback in the
page only calls `startHand` after re-checking that both stacks' are still
positive. -/
def autoNextHand (deal : List Card) (s : HostState) : HostState :=
  if s.game.stacks'.top > 0 ∧ s.game.stacks'.bottom > 0 then startHand deal s else s

/-! ## The single-player betting functions (from the page component)

The single-player engine lives in React hooks; each `setX(v)` is modelled as
a field update, and reads of state variables inside one synchronous handler
see the pre-call snapshot, exactly as React guarantees within one event.
The action log and the pure-UI strings (`blindNotice`, bet-size box) are not
modelled here; no single-player claim concerns them. -/

/-- The single-player per-hand state threaded through the hooks. -/
structure SPState where
  game : GameState
  street : Nat
  toAct : Seat
  handStatus : HandStatus
  lastRaiseSize : ℚ
  lastAggressor : Option Seat
  lastToActAfterAggro : Option Seat
  actionsThisStreet : Nat
  sawCallThisStreet : Bool
  checked : SeatMap Bool
  streetBettor : Option Seat
  showdownFirst : Option Seat
  allInCallThisHand : Bool
  gameOver : Bool
  handId : Nat
deriving DecidableEq, Repr

/-- `canCheck(seat)`: the rounded current-street bets are equal. -/
def canCheck (seat : Seat) (s : SPState) : Bool :=
  decide (roundToHundredth (s.game.bets.get seat.other) = roundToHundredth (s.game.bets.get seat))

/-- `actCheck`: mark the seat checked; preflop after a limp-call with equal
bets the street-closure effect takes over, otherwise the turn passes. -/
def actCheck (seat : Seat) (s : SPState) : SPState :=
  if s.handStatus ≠ .playing then s
  else if canCheck seat s = false then s
  else
    let s1 : SPState := { s with
      checked := s.checked.set seat true,
      actionsThisStreet := s.actionsThisStreet + 1 }
    if s1.street = 0 ∧ s1.sawCallThisStreet = true ∧
        roundToHundredth s1.game.bets.top = roundToHundredth s1.game.bets.bottom then s1
    else { s1 with toAct := seat.other }

/-- `actCall`: call `min(toCall, stack)`; a short all-in call refunds the
unmatched excess to the bettor; river calls fix the showdown show order. -/
def actCall (seat : Seat) (s : SPState) : SPState :=
  if s.handStatus ≠ .playing then s
  else
    let other : Seat := seat.other
    let toCall : ℚ := roundToHundredth (max 0 (s.game.bets.get other - s.game.bets.get seat))
    let add : ℚ := roundToHundredth (min toCall (s.game.stacks'.get seat))
    if add ≤ 0 then
      if canCheck seat s = true then actCheck seat s else s
    else
      let seatStack : ℚ := s.game.stacks'.get seat
      let otherStack : ℚ := s.game.stacks'.get other
      let seatBet : ℚ := s.game.bets.get seat
      let otherBet : ℚ := s.game.bets.get other
      let toCallPrev : ℚ := roundToHundredth (max 0 (otherBet - seatBet))
      let addPrev : ℚ := roundToHundredth (min toCallPrev seatStack)
      let newSeatStack : ℚ := roundToHundredth (max 0 (seatStack - addPrev))
      let newSeatBet : ℚ := roundToHundredth (seatBet + addPrev)
      let refundPair : ℚ × ℚ :=
        if addPrev < toCallPrev then
          let refund : ℚ := roundToHundredth (max 0 (otherBet - newSeatBet))
          if refund > 0 then
            (roundToHundredth (otherBet - refund), roundToHundredth (otherStack + refund))
          else (otherBet, otherStack)
        else (otherBet, otherStack)
      let g : GameState := { s.game with
        stacks' := (s.game.stacks'.set seat newSeatStack).set other refundPair.2,
        bets := (s.game.bets.set seat newSeatBet).set other refundPair.1 }
      let s1 : SPState := { s with game := g }
      let callerWillBeAllIn : Bool := decide (roundToHundredth (seatStack - add) ≤ 0)
      let bettor : Option Seat := s.streetBettor
      let bettorSeat : Seat := other
      let facingBeforeCall : Bool := decide (otherBet > seatBet)
      let s2 : SPState :=
        if facingBeforeCall = true ∧
            (callerWillBeAllIn = true ∨ s.game.stacks'.get bettorSeat ≤ 0) then
          { s1 with allInCallThisHand := true }
        else s1
      let s3 : SPState :=
        if s2.street ≠ 0 ∧ callerWillBeAllIn = true ∧ bettor.isSome = true then
          { s2 with showdownFirst := bettor }
        else s2
      let s4 : SPState := { s3 with
        sawCallThisStreet := true,
        actionsThisStreet := s3.actionsThisStreet + 1 }
      let s5 : SPState :=
        if s4.lastToActAfterAggro = some seat then { s4 with lastToActAfterAggro := none }
        else s4
      let s6 : SPState :=
        if s5.street = 5 ∧ facingBeforeCall = true then
          match s.streetBettor with
          | some b => { s5 with showdownFirst := some b }
          | none => s5
        else s5
      { s6 with toAct := other }

/-- `actBetRaiseTo`: resolve a total bet-to target. Facing a bet the minimum
is the opponent's bet plus the last raise size; the effective maximum is the
smaller of both seats' total chips; a target matching the opponent's bet is
reclassified as a call; below-minimum targets go all-in for `maxEffective`. -/
def actBetRaiseTo (seat : Seat) (targetTotalBet : ℚ) (s : SPState) : SPState :=
  if s.handStatus ≠ .playing then s
  else
    let other : Seat := seat.other
    let mySeatBet : ℚ := s.game.bets.get seat
    let otherSeatBet : ℚ := s.game.bets.get other
    let myStack : ℚ := s.game.stacks'.get seat
    let otherStack : ℚ := s.game.stacks'.get other
    let isFacing : Bool := decide (otherSeatBet > mySeatBet)
    let effectiveLastRaiseSize : ℚ := s.lastRaiseSize
    let minTarget : ℚ :=
      if isFacing = true then roundToHundredth (otherSeatBet + effectiveLastRaiseSize) else BB
    let maxPossible : ℚ := roundToHundredth (mySeatBet + myStack)
    let maxEffective : ℚ := roundToHundredth (min maxPossible (otherSeatBet + otherStack))
    let canMeetMinRaise : Bool := decide (maxEffective ≥ minTarget)
    let isJustCalling : Bool :=
      isFacing && decide (roundToHundredth maxEffective = roundToHundredth otherSeatBet)
    if isJustCalling = true then actCall seat s
    else
      let target : ℚ :=
        if canMeetMinRaise = false then maxEffective
        else roundToHundredth (clamp targetTotalBet minTarget maxEffective)
      if isFacing = true ∧ roundToHundredth target = roundToHundredth otherSeatBet then
        actCall seat s
      else
        let chipsToAdd : ℚ := roundToHundredth (target - mySeatBet)
        if chipsToAdd ≤ 0 then s
        else
          let g : GameState := { s.game with
            stacks' := s.game.stacks'.set seat
              (roundToHundredth (s.game.stacks'.get seat - chipsToAdd)),
            bets := s.game.bets.set seat target }
          let newRaiseSize : ℚ :=
            if isFacing = true then roundToHundredth (target - otherSeatBet) else target
          { s with
            game := g, lastRaiseSize := newRaiseSize, streetBettor := some seat,
            actionsThisStreet := s.actionsThisStreet + 1, checked := ⟨false, false⟩,
            lastAggressor := some seat, lastToActAfterAggro := some other, toAct := other }

/-- `startNewHand` (single-player): refuses to start when the game is over,
otherwise resets the per-hand state and bumps the hand id. -/
def startNewHand (s : SPState) : SPState :=
  if s.gameOver = true then s
  else { s with
    allInCallThisHand := false, handStatus := .playing, street := 0,
    checked := ⟨false, false⟩, lastAggressor := none, lastToActAfterAggro := none,
    actionsThisStreet := 0, streetBettor := none, showdownFirst := none,
    sawCallThisStreet := false, handId := s.handId + 1 }

/-! ## Arithmetic infrastructure: hundredth-of-a-big-blind amounts -/

/-- `Hund q`: `q` is an integer number of hundredths of a big blind, the
smallest currency unit of the program. -/
def Hund (q : ℚ) : Prop := ∃ n : ℤ, q = (n : ℚ) / 100


/-- The total number of chips on the table. -/
def totalChips (g : GameState) : ℚ :=
  g.stacks'.top + g.stacks'.bottom + g.bets.top + g.bets.bottom + g.pot

/-- All five chip quantities of the ledger are whole hundredths. -/
def HundGame (g : GameState) : Prop :=
  Hund g.stacks'.top ∧ Hund g.stacks'.bottom ∧ Hund g.bets.top ∧ Hund g.bets.bottom ∧
    Hund g.pot

/-- The per-hand chip invariant: the table total equals the conserved
constant, and while the hand is still playing every quantity is a whole
hundredth. -/
def ChipInv (C : ℚ) (s : HostState) : Prop :=
  totalChips s.game = C ∧ (s.handResult.status = .playing → HundGame s.game)

/-- Whether a `GameAction`'s parameter is a whole number of hundredths (the
bet-to target is the only parametrised action). -/
def HundAct : GameAction → Prop
  | .betRaiseTo t => Hund t
  | _ => True

/-- A whole hand's worth of actions applied through `processAction`. -/
def applyActions (acts : List (Seat × GameAction)) (s : HostState) : HostState :=
  acts.foldl (fun st p => processAction p.1 p.2 st) s

/-- The pure `GameState` effect of the showdown payout: a tie adds half the
pot to each stack, otherwise the winning seat's stack grows by the whole
pot; pot and bets are zeroed. -/
def payoutGame (w : Winner) (g : GameState) : GameState :=
  let potSize := g.pot + g.bets.top + g.bets.bottom
  let stacks1 : SeatMap ℚ :=
    if w = .tie then
      (⟨g.stacks'.top + potSize / 2, g.stacks'.bottom + potSize / 2⟩ : SeatMap ℚ)
    else
      let winnerSeat : Seat := if w = .seat .bottom then .bottom else .top
      g.stacks'.set winnerSeat (g.stacks'.get winnerSeat + potSize)
  ⟨stacks1, ⟨0, 0⟩, 0⟩

/-- One externally reachable host operation after `startHand`: a seat action
through `processAction`, a voluntary hole-card show, or the auto-next-hand
timer (which starts a new hand only while both stacks are positive). -/
inductive HostOp
  | act (seat : Seat) (a : GameAction)
  | showHand (seat : Seat)
  | nextHand (deal : List Card)

/-- Apply one host operation. -/
def applyOp : HostOp → HostState → HostState
  | .act seat a, s => processAction seat a s
  | .showHand seat, s => handleShowHand seat s
  | .nextHand deal, s => autoNextHand deal s

/-- Apply a sequence of host operations. -/
def applyOps (ops : List HostOp) (s : HostState) : HostState :=
  ops.foldl (fun st op => applyOp op st) s

/-- A concrete frozen host state: the top seat is busted, the hand has ended
by fold and `gameOver` is set. -/
def frozenState : HostState :=
  { createInitialState 0 with
    gameOver := true,
    handResult :=
      { status := .ended, winner := some (.seat .bottom), reason := some .fold,
        message := "You win" },
    game := { stacks' := ⟨0, 50⟩, bets := ⟨0, 0⟩, pot := 0 } }

/-- A concrete single-player state with the game over. -/
def frozenSPState : SPState :=
  { game := { stacks' := ⟨0, 50⟩, bets := ⟨0, 0⟩, pot := 0 },
    street := 0, toAct := .top, handStatus := .ended, lastRaiseSize := BB,
    lastAggressor := none, lastToActAfterAggro := none, actionsThisStreet := 0,
    sawCallThisStreet := false, checked := ⟨false, false⟩, streetBettor := none,
    showdownFirst := none, allInCallThisHand := false, gameOver := true, handId := 3 }

/-- A single-player flop state: the top seat has bet 4bb (stack 46bb left),
the bottom seat (50bb) faces it, and the last raise size is 2bb. -/
def c4SPState : SPState :=
  { game := { stacks' := ⟨46, 50⟩, bets := ⟨4, 0⟩, pot := 2 },
    street := 3, toAct := .bottom, handStatus := .playing, lastRaiseSize := 2,
    lastAggressor := some .top, lastToActAfterAggro := some .bottom,
    actionsThisStreet := 1, sawCallThisStreet := false, checked := ⟨false, false⟩,
    streetBettor := some .top, showdownFirst := none, allInCallThisHand := false,
    gameOver := false, handId := 1 }

/-- The same flop situation on the authoritative host: top bet 4bb with 46bb
behind, bottom to act with 50bb, last raise size 2bb. -/
def c4HostState : HostState :=
  { createInitialState 0 with
    game := { stacks' := ⟨46, 50⟩, bets := ⟨4, 0⟩, pot := 2 },
    street := 3, toAct := .bottom, blindsPosted := true, lastRaiseSize := 2,
    lastAggressor := some .top, actionsThisStreet := 1 }

/-- A single-player flop state where the bottom seat has only 3bb left and
faces a 10bb bet from the top seat (37bb behind). -/
def c6SPState : SPState :=
  { game := { stacks' := ⟨37, 3⟩, bets := ⟨10, 0⟩, pot := 2 },
    street := 3, toAct := .bottom, handStatus := .playing, lastRaiseSize := 10,
    lastAggressor := some .top, lastToActAfterAggro := some .bottom,
    actionsThisStreet := 1, sawCallThisStreet := false, checked := ⟨false, false⟩,
    streetBettor := some .top, showdownFirst := none, allInCallThisHand := false,
    gameOver := false, handId := 1 }

/-- The same situation on the authoritative host: flop, top bet 10bb (37bb
behind), bottom to act with a 3bb stack. -/
def c6HostState : HostState :=
  { createInitialState 0 with
    game := { stacks' := ⟨37, 3⟩, bets := ⟨10, 0⟩, pot := 2 },
    street := 3, toAct := .bottom, blindsPosted := true, lastRaiseSize := 10,
    lastAggressor := some .top, actionsThisStreet := 1 }

theorem hund_add {q r : ℚ} : Hund q → Hund r → Hund (q + r)
  | ⟨a, ha⟩, ⟨b, hb⟩ => ⟨a + b, by rw [ha, hb]; push_cast; ring⟩

theorem hund_sub {q r : ℚ} : Hund q → Hund r → Hund (q - r)
  | ⟨a, ha⟩, ⟨b, hb⟩ => ⟨a - b, by rw [ha, hb]; push_cast; ring⟩

theorem hund_zero : Hund 0 := ⟨0, by norm_num⟩

theorem hund_min {q r : ℚ} (hq : Hund q) (hr : Hund r) : Hund (min q r) := by
  rcases le_total q r with h | h
  · rw [min_eq_left h]; exact hq
  · rw [min_eq_right h]; exact hr

theorem hund_max {q r : ℚ} (hq : Hund q) (hr : Hund r) : Hund (max q r) := by
  rcases le_total q r with h | h
  · rw [max_eq_right h]; exact hr
  · rw [max_eq_left h]; exact hq

theorem hund_SB : Hund SB := ⟨50, by norm_num [SB]⟩

theorem hund_BB : Hund BB := ⟨100, by norm_num [BB]⟩

/-- `Rat.floor` agrees with the floor of the `FloorRing` instance. -/
theorem ratFloor_eq_floor (q : ℚ) : Rat.floor q = ⌊q⌋ :=
  le_antisymm (Int.le_floor.mpr (Rat.le_floor.mp le_rfl))
    (Rat.le_floor.mpr (Int.le_floor.mp le_rfl))

/-- Rounding is the identity on amounts that are whole hundredths. -/
theorem roundToHundredth_eq_self {q : ℚ} (h : Hund q) : roundToHundredth q = q := by
  obtain ⟨n, rfl⟩ := h
  unfold roundToHundredth
  rw [ratFloor_eq_floor]
  have h1 : (n : ℚ) / 100 * 100 + 1 / 2 = (n : ℚ) + 1 / 2 := by ring
  rw [h1, Int.floor_int_add]
  norm_num

/-- Every rounded value is a whole number of hundredths. -/
theorem hund_roundToHundredth (q : ℚ) : Hund (roundToHundredth q) :=
  ⟨Rat.floor (q * 100 + 1 / 2), rfl⟩

theorem SeatMap.get_top {α : Type} (m : SeatMap α) : m.get .top = m.top := rfl

theorem SeatMap.get_bottom {α : Type} (m : SeatMap α) : m.get .bottom = m.bottom := rfl

theorem SeatMap.get_other_other {α : Type} (m : SeatMap α) (s : Seat) :
    m.get s.other.other = m.get s := by cases s <;> rfl


set_option maxHeartbeats 2000000 in
theorem showdownReveals_fields (w : Winner) (s : HostState) :
    (showdownReveals w s).game = s.game ∧
      (showdownReveals w s).handResult = s.handResult ∧
      (showdownReveals w s).handStartStacks = s.handStartStacks ∧
      (showdownReveals w s).gameOver = s.gameOver ∧
      (showdownReveals w s).street = s.street := by
  unfold showdownReveals logAction
  dsimp only
  repeat' split
  all_goals exact ⟨rfl, rfl, rfl, rfl, rfl⟩

set_option maxHeartbeats 1000000 in
theorem showdownPayout_fields (w : Winner) (s : HostState) :
    (showdownPayout w s).handResult = s.handResult ∧
      (showdownPayout w s).handStartStacks = s.handStartStacks ∧
      (showdownPayout w s).street = s.street := by
  unfold showdownPayout logAction
  dsimp only
  repeat' split
  all_goals exact ⟨rfl, rfl, rfl⟩

set_option maxHeartbeats 1000000 in
theorem showdownPayout_total (w : Winner) (s : HostState) :
    totalChips (showdownPayout w s).game = totalChips s.game := by
  unfold showdownPayout logAction totalChips
  dsimp only
  rcases w with seat | _
  · rcases seat <;> (repeat' split) <;> (dsimp [SeatMap.set, SeatMap.get] <;> ring)
  · repeat' split
    all_goals dsimp [SeatMap.set, SeatMap.get]
    all_goals ring

theorem resolveShowdown_total (s : HostState) :
    totalChips (resolveShowdown s).game = totalChips s.game := by
  unfold resolveShowdown
  dsimp only
  rw [showdownPayout_total, (showdownReveals_fields _ _).1]

theorem resolveShowdown_status (s : HostState) :
    (resolveShowdown s).handResult.status = .ended := by
  unfold resolveShowdown
  dsimp only
  rw [(showdownPayout_fields _ _).1, (showdownReveals_fields _ _).2.1]

theorem resolveShowdown_handStartStacks (s : HostState) :
    (resolveShowdown s).handStartStacks = s.handStartStacks := by
  unfold resolveShowdown
  dsimp only
  rw [(showdownPayout_fields _ _).2.1, (showdownReveals_fields _ _).2.2.1]

theorem resolveShowdown_inv {C : ℚ} {s : HostState} (h : ChipInv C s) :
    ChipInv C (resolveShowdown s) := by
  refine ⟨?_, ?_⟩
  · rw [resolveShowdown_total]; exact h.1
  · intro hp
    rw [resolveShowdown_status] at hp
    exact absurd hp (by decide)

theorem chipInv_of_pull {C : ℚ} {s t : HostState} (h : ChipInv C s)
    (hg : t.game = GameState.mk s.game.stacks' ⟨0, 0⟩
      (s.game.pot + s.game.bets.top + s.game.bets.bottom))
    (hr : t.handResult = s.handResult) : ChipInv C t := by
  obtain ⟨htot, hhund⟩ := h
  refine ⟨?_, ?_⟩
  · rw [hg]
    dsimp only [totalChips] at htot ⊢
    linear_combination htot
  · intro hp
    rw [hr] at hp
    obtain ⟨h1, h2, h3, h4, h5⟩ := hhund hp
    rw [hg]
    exact ⟨h1, h2, hund_zero, hund_zero, hund_add (hund_add h5 h3) h4⟩

theorem advanceStreet_inv {C : ℚ} {s : HostState} (h : ChipInv C s) :
    ChipInv C (advanceStreet s) := by
  unfold advanceStreet
  dsimp only
  by_cases h1 : s.street = 0 ∨ s.street = 3 ∨ s.street = 4
  · rw [if_pos h1]
    by_cases h2 : (s.game.stacks'.top ≤ 0 ∨ s.game.stacks'.bottom ≤ 0) ∧
        (if s.street = 0 then 3 else if s.street = 3 then 4 else 5) < 5
    · rw [if_pos h2]
      exact resolveShowdown_inv (chipInv_of_pull h rfl rfl)
    · rw [if_neg h2]
      exact chipInv_of_pull h rfl rfl
  · rw [if_neg h1]
    exact resolveShowdown_inv (chipInv_of_pull h rfl rfl)

theorem advanceStreet_handStartStacks (s : HostState) :
    (advanceStreet s).handStartStacks = s.handStartStacks := by
  unfold advanceStreet
  dsimp only
  by_cases h1 : s.street = 0 ∨ s.street = 3 ∨ s.street = 4
  · rw [if_pos h1]
    by_cases h2 : (s.game.stacks'.top ≤ 0 ∨ s.game.stacks'.bottom ≤ 0) ∧
        (if s.street = 0 then 3 else if s.street = 3 then 4 else 5) < 5
    · rw [if_pos h2, resolveShowdown_handStartStacks]
    · rw [if_neg h2]
  · rw [if_neg h1, resolveShowdown_handStartStacks]

theorem handleFold_status (seat : Seat) (s : HostState) :
    (handleFold seat s).handResult.status = .ended := by
  unfold handleFold logAction
  dsimp only
  repeat' split
  all_goals rfl

theorem handleFold_handStartStacks (seat : Seat) (s : HostState) :
    (handleFold seat s).handStartStacks = s.handStartStacks := by
  unfold handleFold logAction
  dsimp only
  repeat' split
  all_goals rfl

theorem handleFold_total (seat : Seat) (s : HostState) :
    totalChips (handleFold seat s).game = totalChips s.game := by
  unfold handleFold logAction totalChips
  dsimp only
  cases seat
  all_goals repeat' split
  all_goals dsimp only [SeatMap.set, SeatMap.get, Seat.other]
  all_goals ring

theorem handleFold_inv {C : ℚ} {s : HostState} (seat : Seat) (h : ChipInv C s) :
    ChipInv C (handleFold seat s) := by
  refine ⟨?_, ?_⟩
  · rw [handleFold_total]; exact h.1
  · intro hp
    rw [handleFold_status] at hp
    exact absurd hp (by decide)

theorem handleCheck_handStartStacks (seat : Seat) (s : HostState) :
    (handleCheck seat s).handStartStacks = s.handStartStacks := by
  unfold handleCheck logAction
  dsimp only
  split
  · rw [advanceStreet_handStartStacks]
  · rfl

theorem handleCheck_inv {C : ℚ} {s : HostState} (seat : Seat) (h : ChipInv C s) :
    ChipInv C (handleCheck seat s) := by
  unfold handleCheck logAction
  dsimp only
  split
  · exact advanceStreet_inv ⟨h.1, h.2⟩
  · exact ⟨h.1, h.2⟩

theorem callChips_total (seat : Seat) {g : GameState} (hg : HundGame g) :
    totalChips (callChips seat g) = totalChips g := by
  obtain ⟨h1, h2, h3, h4, h5⟩ := hg
  unfold callChips totalChips
  dsimp only
  cases seat
  case top =>
    dsimp only [SeatMap.set, SeatMap.get, Seat.other]
    split
    · rw [roundToHundredth_eq_self (hund_add h3 (hund_roundToHundredth _)),
        roundToHundredth_eq_self (hund_sub h1 (hund_roundToHundredth _)),
        roundToHundredth_eq_self (hund_sub h4 (hund_roundToHundredth _)),
        roundToHundredth_eq_self (hund_add h2 (hund_roundToHundredth _))]
      ring
    · rw [roundToHundredth_eq_self (hund_add h3 (hund_roundToHundredth _)),
        roundToHundredth_eq_self (hund_sub h1 (hund_roundToHundredth _))]
      ring
  case bottom =>
    dsimp only [SeatMap.set, SeatMap.get, Seat.other]
    split
    · rw [roundToHundredth_eq_self (hund_add h4 (hund_roundToHundredth _)),
        roundToHundredth_eq_self (hund_sub h2 (hund_roundToHundredth _)),
        roundToHundredth_eq_self (hund_sub h3 (hund_roundToHundredth _)),
        roundToHundredth_eq_self (hund_add h1 (hund_roundToHundredth _))]
      ring
    · rw [roundToHundredth_eq_self (hund_add h4 (hund_roundToHundredth _)),
        roundToHundredth_eq_self (hund_sub h2 (hund_roundToHundredth _))]
      ring

theorem callChips_hund (seat : Seat) {g : GameState} (hg : HundGame g) :
    HundGame (callChips seat g) := by
  obtain ⟨h1, h2, h3, h4, h5⟩ := hg
  unfold callChips
  dsimp only
  cases seat
  all_goals
    dsimp only [SeatMap.set, SeatMap.get, Seat.other]
  all_goals split
  all_goals refine ⟨?_, ?_, ?_, ?_, ?_⟩
  all_goals first
    | exact hund_roundToHundredth _
    | assumption

theorem handleCall_handStartStacks (seat : Seat) (s : HostState) :
    (handleCall seat s).handStartStacks = s.handStartStacks := by
  unfold handleCall logAction
  dsimp only
  repeat' split
  all_goals first
    | rfl
    | rw [advanceStreet_handStartStacks]

theorem handleCall_inv {C : ℚ} {s : HostState} (seat : Seat) (h : ChipInv C s)
    (hp : s.handResult.status = .playing) : ChipInv C (handleCall seat s) := by
  have hg := h.2 hp
  have hInv : ChipInv C { s with game := callChips seat s.game } :=
    ⟨by dsimp only; rw [callChips_total seat hg]; exact h.1,
     fun _ => callChips_hund seat hg⟩
  unfold handleCall logAction
  dsimp only
  repeat' split
  all_goals first
    | exact ⟨hInv.1, hInv.2⟩
    | exact advanceStreet_inv ⟨hInv.1, hInv.2⟩

theorem handleBetRaise_handStartStacks (seat : Seat) (t : ℚ) (s : HostState) :
    (handleBetRaise seat t s).handStartStacks = s.handStartStacks := by
  unfold handleBetRaise logAction
  dsimp only

theorem handleBetRaise_inv {C : ℚ} {s : HostState} (seat : Seat) (t : ℚ)
    (h : ChipInv C s) (hp : s.handResult.status = .playing) (ht : Hund t) :
    ChipInv C (handleBetRaise seat t s) := by
  obtain ⟨h1, h2, h3, h4, h5⟩ := h.2 hp
  have htot := h.1
  dsimp only [totalChips] at htot
  unfold handleBetRaise logAction
  dsimp only
  cases seat
  case top =>
    dsimp only [SeatMap.set, SeatMap.get, Seat.other]
    refine ⟨?_, fun _ => ⟨hund_roundToHundredth _, h2, hund_roundToHundredth _, h4, h5⟩⟩
    dsimp only [totalChips]
    rw [roundToHundredth_eq_self (hund_min ht (hund_add h3 h1)),
      roundToHundredth_eq_self (hund_sub h1 (hund_sub (hund_min ht (hund_add h3 h1)) h3))]
    linear_combination htot
  case bottom =>
    dsimp only [SeatMap.set, SeatMap.get, Seat.other]
    refine ⟨?_, fun _ => ⟨h1, hund_roundToHundredth _, h3, hund_roundToHundredth _, h5⟩⟩
    dsimp only [totalChips]
    rw [roundToHundredth_eq_self (hund_min ht (hund_add h4 h2)),
      roundToHundredth_eq_self (hund_sub h2 (hund_sub (hund_min ht (hund_add h4 h2)) h4))]
    linear_combination htot


theorem processAction_inv {C : ℚ} {s : HostState} (seat : Seat) (a : GameAction)
    (h : ChipInv C s) (ha : HundAct a) : ChipInv C (processAction seat a s) := by
  unfold processAction
  split
  · exact h
  · split
    · exact h
    · rename_i hst
      have hp : s.handResult.status = .playing := not_not.mp hst
      cases a
      · exact handleFold_inv seat h
      · exact handleCheck_inv seat h
      · exact handleCall_inv seat h hp
      · exact handleBetRaise_inv seat _ h hp ha

theorem processAction_handStartStacks (seat : Seat) (a : GameAction) (s : HostState) :
    (processAction seat a s).handStartStacks = s.handStartStacks := by
  unfold processAction
  split
  · rfl
  · split
    · rfl
    · cases a
      · rw [handleFold_handStartStacks]
      · rw [handleCheck_handStartStacks]
      · rw [handleCall_handStartStacks]
      · rw [handleBetRaise_handStartStacks]

theorem postBlinds_handStartStacks (s : HostState) :
    (postBlinds s).handStartStacks = s.handStartStacks := by
  unfold postBlinds logAction
  dsimp only

theorem postBlinds_handResult (s : HostState) :
    (postBlinds s).handResult = s.handResult := by
  unfold postBlinds logAction
  dsimp only

theorem postBlinds_total {s : HostState} (hp : s.game.pot = 0)
    (h1 : Hund s.game.stacks'.top) (h2 : Hund s.game.stacks'.bottom) :
    totalChips (postBlinds s).game = s.game.stacks'.top + s.game.stacks'.bottom := by
  unfold postBlinds logAction totalChips dealerOf
  dsimp only
  by_cases hd : s.dealerOffset = 0
  · rw [if_pos hd]
    dsimp only [Seat.other, SeatMap.set, SeatMap.get]
    rw [roundToHundredth_eq_self (hund_min hund_SB h1),
      roundToHundredth_eq_self (hund_min hund_BB h2),
      roundToHundredth_eq_self (hund_sub h1 (hund_min hund_SB h1)),
      roundToHundredth_eq_self (hund_sub h2 (hund_min hund_BB h2)), hp]
    ring
  · rw [if_neg hd]
    dsimp only [Seat.other, SeatMap.set, SeatMap.get]
    rw [roundToHundredth_eq_self (hund_min hund_SB h2),
      roundToHundredth_eq_self (hund_min hund_BB h1),
      roundToHundredth_eq_self (hund_sub h2 (hund_min hund_SB h2)),
      roundToHundredth_eq_self (hund_sub h1 (hund_min hund_BB h1)), hp]
    ring

theorem postBlinds_hund {s : HostState} (hp : s.game.pot = 0)
    (h1 : Hund s.game.stacks'.top) (h2 : Hund s.game.stacks'.bottom) :
    HundGame (postBlinds s).game := by
  unfold postBlinds logAction dealerOf
  dsimp only
  by_cases hd : s.dealerOffset = 0
  · rw [if_pos hd]
    dsimp only [Seat.other, SeatMap.set, SeatMap.get]
    exact ⟨hund_roundToHundredth _, hund_roundToHundredth _, hund_roundToHundredth _,
      hund_roundToHundredth _, hp ▸ hund_zero⟩
  · rw [if_neg hd]
    dsimp only [Seat.other, SeatMap.set, SeatMap.get]
    exact ⟨hund_roundToHundredth _, hund_roundToHundredth _, hund_roundToHundredth _,
      hund_roundToHundredth _, hp ▸ hund_zero⟩

theorem postBlinds_chipInv {s : HostState} (hp : s.game.pot = 0)
    (h1 : Hund s.game.stacks'.top) (h2 : Hund s.game.stacks'.bottom)
    (hh : s.handStartStacks = s.game.stacks') :
    ChipInv ((postBlinds s).handStartStacks.top + (postBlinds s).handStartStacks.bottom)
      (postBlinds s) := by
  refine ⟨?_, fun _ => postBlinds_hund hp h1 h2⟩
  rw [postBlinds_handStartStacks, hh, postBlinds_total hp h1 h2]

theorem startHand_chipInv (deal : List Card) {s : HostState} (hp : s.game.pot = 0)
    (h1 : Hund s.game.stacks'.top) (h2 : Hund s.game.stacks'.bottom) :
    ChipInv
      ((startHand deal s).handStartStacks.top + (startHand deal s).handStartStacks.bottom)
      (startHand deal s) := by
  unfold startHand
  dsimp only
  repeat' split
  all_goals first
    | exact postBlinds_chipInv hp h1 h2 rfl
    | exact postBlinds_chipInv hp (hund_roundToHundredth _) (hund_roundToHundredth _) rfl


theorem applyActions_chipInv {C : ℚ} (acts : List (Seat × GameAction)) :
    ∀ s : HostState, ChipInv C s → (∀ p ∈ acts, HundAct p.2) →
      ChipInv C (applyActions acts s) ∧
        (applyActions acts s).handStartStacks = s.handStartStacks := by
  induction acts with
  | nil => exact fun s h _ => ⟨h, rfl⟩
  | cons p rest ih =>
    intro s h ha
    have hstep := processAction_inv p.1 p.2 h (ha p (List.mem_cons_self p rest))
    have hrest := ih (processAction p.1 p.2 s) hstep
      (fun q hq => ha q (List.mem_cons_of_mem p hq))
    exact ⟨hrest.1, hrest.2.trans (processAction_handStartStacks p.1 p.2 s)⟩


/-! ## Claim C1 -/


/-- C1: chip conservation. For every state reachable within a hand — the
hand is started (`startHand`: blind level applied, start stacks snapshotted,
blinds posted) and then any sequence of betting-engine operations (fold,
check, call, bet/raise, the street advances and showdown settlement they
trigger) is processed — the two stacks plus the two outstanding bets plus
the pot equal exactly the sum of the hand's starting stacks, provided the
pot was empty at the hand boundary and every amount is a whole hundredth of
a big blind (the smallest currency unit). -/
theorem c1_chip_conservation (s : HostState) (deal : List Card)
    (acts : List (Seat × GameAction))
    (hpot : s.game.pot = 0)
    (h1 : Hund s.game.stacks'.top) (h2 : Hund s.game.stacks'.bottom)
    (ha : ∀ p ∈ acts, HundAct p.2) :
    (applyActions acts (startHand deal s)).game.stacks'.top +
        (applyActions acts (startHand deal s)).game.stacks'.bottom +
        (applyActions acts (startHand deal s)).game.bets.top +
        (applyActions acts (startHand deal s)).game.bets.bottom +
        (applyActions acts (startHand deal s)).game.pot =
      (applyActions acts (startHand deal s)).handStartStacks.top +
        (applyActions acts (startHand deal s)).handStartStacks.bottom := by
  have hstart := startHand_chipInv deal hpot h1 h2
  have hfold := applyActions_chipInv acts (startHand deal s) hstart ha
  have htot := hfold.1.1
  dsimp only [totalChips] at htot
  rw [htot, hfold.2]

unseal Rat.mul Rat.add Rat.inv Rat.sub in
/-- Witness for C1: a concrete hand (initial 25bb stacks, a fixed deal, the
dealer calls and the big blind checks) conserves chips exactly. -/
theorem c1_chip_conservation_witness :
    (applyActions [(Seat.top, GameAction.call), (Seat.bottom, GameAction.check)]
          (startHand
            [⟨"A", "s"⟩, ⟨"K", "s"⟩, ⟨"Q", "d"⟩, ⟨"J", "d"⟩, ⟨"2", "c"⟩, ⟨"7", "h"⟩,
              ⟨"9", "c"⟩, ⟨"4", "d"⟩, ⟨"8", "s"⟩]
            (createInitialState 0))).game.stacks'.top +
        (applyActions [(Seat.top, GameAction.call), (Seat.bottom, GameAction.check)]
          (startHand
            [⟨"A", "s"⟩, ⟨"K", "s"⟩, ⟨"Q", "d"⟩, ⟨"J", "d"⟩, ⟨"2", "c"⟩, ⟨"7", "h"⟩,
              ⟨"9", "c"⟩, ⟨"4", "d"⟩, ⟨"8", "s"⟩]
            (createInitialState 0))).game.stacks'.bottom +
        (applyActions [(Seat.top, GameAction.call), (Seat.bottom, GameAction.check)]
          (startHand
            [⟨"A", "s"⟩, ⟨"K", "s"⟩, ⟨"Q", "d"⟩, ⟨"J", "d"⟩, ⟨"2", "c"⟩, ⟨"7", "h"⟩,
              ⟨"9", "c"⟩, ⟨"4", "d"⟩, ⟨"8", "s"⟩]
            (createInitialState 0))).game.bets.top +
        (applyActions [(Seat.top, GameAction.call), (Seat.bottom, GameAction.check)]
          (startHand
            [⟨"A", "s"⟩, ⟨"K", "s"⟩, ⟨"Q", "d"⟩, ⟨"J", "d"⟩, ⟨"2", "c"⟩, ⟨"7", "h"⟩,
              ⟨"9", "c"⟩, ⟨"4", "d"⟩, ⟨"8", "s"⟩]
            (createInitialState 0))).game.bets.bottom +
        (applyActions [(Seat.top, GameAction.call), (Seat.bottom, GameAction.check)]
          (startHand
            [⟨"A", "s"⟩, ⟨"K", "s"⟩, ⟨"Q", "d"⟩, ⟨"J", "d"⟩, ⟨"2", "c"⟩, ⟨"7", "h"⟩,
              ⟨"9", "c"⟩, ⟨"4", "d"⟩, ⟨"8", "s"⟩]
            (createInitialState 0))).game.pot =
      (applyActions [(Seat.top, GameAction.call), (Seat.bottom, GameAction.check)]
          (startHand
            [⟨"A", "s"⟩, ⟨"K", "s"⟩, ⟨"Q", "d"⟩, ⟨"J", "d"⟩, ⟨"2", "c"⟩, ⟨"7", "h"⟩,
              ⟨"9", "c"⟩, ⟨"4", "d"⟩, ⟨"8", "s"⟩]
            (createInitialState 0))).handStartStacks.top +
        (applyActions [(Seat.top, GameAction.call), (Seat.bottom, GameAction.check)]
          (startHand
            [⟨"A", "s"⟩, ⟨"K", "s"⟩, ⟨"Q", "d"⟩, ⟨"J", "d"⟩, ⟨"2", "c"⟩, ⟨"7", "h"⟩,
              ⟨"9", "c"⟩, ⟨"4", "d"⟩, ⟨"8", "s"⟩]
            (createInitialState 0))).handStartStacks.bottom :=
  c1_chip_conservation (createInitialState 0)
    [⟨"A", "s"⟩, ⟨"K", "s"⟩, ⟨"Q", "d"⟩, ⟨"J", "d"⟩, ⟨"2", "c"⟩, ⟨"7", "h"⟩,
      ⟨"9", "c"⟩, ⟨"4", "d"⟩, ⟨"8", "s"⟩]
    [(Seat.top, GameAction.call), (Seat.bottom, GameAction.check)]
    rfl ⟨2500, by decide⟩ ⟨2500, by decide⟩
    (by
      intro p hp
      rcases List.mem_cons.mp hp with h | h
      · rw [h]; trivial
      · rcases List.mem_cons.mp h with h2 | h2
        · rw [h2]; trivial
        · exact absurd h2 (List.not_mem_nil p))


/-! ## Claim C2 -/


set_option maxHeartbeats 1000000 in
theorem showdownPayout_game (w : Winner) (s : HostState) :
    (showdownPayout w s).game = payoutGame w s.game := by
  unfold showdownPayout payoutGame logAction
  dsimp only
  repeat' split
  all_goals first | rfl | simp_all

theorem resolveShowdown_game (s : HostState) :
    (resolveShowdown s).game = payoutGame (showdownWinner s) s.game := by
  unfold resolveShowdown
  dsimp only
  rw [showdownPayout_game, (showdownReveals_fields _ _).1]

theorem resolveShowdown_winner (s : HostState) :
    (resolveShowdown s).handResult.winner = some (showdownWinner s) ∧
      (resolveShowdown s).handResult.reason = some .showdown := by
  unfold resolveShowdown
  dsimp only
  rw [(showdownPayout_fields _ _).1, (showdownReveals_fields _ _).2.1]
  exact ⟨rfl, rfl⟩

/-- C2: at showdown the pot (including any outstanding bets) goes in full to
the seat whose 7-card evaluation — hole cards plus revealed board — scores
strictly greater under `compareScore`; on an exactly equal score each seat
receives exactly half; the recorded winner matches the comparison, pot and
bets are zeroed, and the hand is marked ended. -/
theorem c2_showdown_award (s : HostState) :
    ((0 < compareScore (evaluate7 (bottomHoleCards s ++ showdownBoard s))
          (evaluate7 (topHoleCards s ++ showdownBoard s)) →
        (resolveShowdown s).game.stacks'.bottom =
            s.game.stacks'.bottom +
              (s.game.pot + s.game.bets.top + s.game.bets.bottom) ∧
          (resolveShowdown s).game.stacks'.top = s.game.stacks'.top ∧
          (resolveShowdown s).handResult.winner = some (.seat .bottom)) ∧
      (compareScore (evaluate7 (bottomHoleCards s ++ showdownBoard s))
          (evaluate7 (topHoleCards s ++ showdownBoard s)) < 0 →
        (resolveShowdown s).game.stacks'.top =
            s.game.stacks'.top +
              (s.game.pot + s.game.bets.top + s.game.bets.bottom) ∧
          (resolveShowdown s).game.stacks'.bottom = s.game.stacks'.bottom ∧
          (resolveShowdown s).handResult.winner = some (.seat .top)) ∧
      (compareScore (evaluate7 (bottomHoleCards s ++ showdownBoard s))
          (evaluate7 (topHoleCards s ++ showdownBoard s)) = 0 →
        (resolveShowdown s).game.stacks'.top =
            s.game.stacks'.top +
              (s.game.pot + s.game.bets.top + s.game.bets.bottom) / 2 ∧
          (resolveShowdown s).game.stacks'.bottom =
            s.game.stacks'.bottom +
              (s.game.pot + s.game.bets.top + s.game.bets.bottom) / 2 ∧
          (resolveShowdown s).handResult.winner = some .tie)) ∧
      (resolveShowdown s).game.pot = 0 ∧
      (resolveShowdown s).game.bets.top = 0 ∧
      (resolveShowdown s).game.bets.bottom = 0 ∧
      (resolveShowdown s).handResult.status = .ended := by
  have hg := resolveShowdown_game s
  have hw := resolveShowdown_winner s
  refine ⟨⟨?_, ?_, ?_⟩, ?_, ?_, ?_, resolveShowdown_status s⟩
  · intro hc
    have hwin : showdownWinner s = .seat .bottom := by
      unfold showdownWinner showdownCmp
      dsimp only
      rw [if_pos hc]
    rw [hwin] at hg hw
    refine ⟨?_, ?_, hw.1⟩
    · rw [hg]; simp [payoutGame, SeatMap.set, SeatMap.get]
    · rw [hg]; simp [payoutGame, SeatMap.set, SeatMap.get]
  · intro hc
    have hwin : showdownWinner s = .seat .top := by
      unfold showdownWinner showdownCmp
      dsimp only
      rw [if_neg (by omega : ¬ (0 : Int) < _), if_pos hc]
    rw [hwin] at hg hw
    refine ⟨?_, ?_, hw.1⟩
    · rw [hg]; simp [payoutGame, SeatMap.set, SeatMap.get]
    · rw [hg]; simp [payoutGame, SeatMap.set, SeatMap.get]
  · intro hc
    have hwin : showdownWinner s = .tie := by
      unfold showdownWinner showdownCmp
      dsimp only
      rw [if_neg (by omega : ¬ (0 : Int) < _), if_neg (by omega : ¬ _ < (0 : Int))]
    rw [hwin] at hg hw
    refine ⟨?_, ?_, hw.1⟩
    · rw [hg]; simp [payoutGame, SeatMap.set, SeatMap.get]
    · rw [hg]; simp [payoutGame, SeatMap.set, SeatMap.get]
  · rw [hg]; rfl
  · rw [hg]; rfl
  · rw [hg]; rfl

/-! ## Claim C8 -/
set_option maxRecDepth 4000 in
/-- C8: the wheel is scored five-high. Every set of distinct card values
containing A,2,3,4,5 is, in the evaluator's descending order,
`14 :: m ++ [5,4,3,2]` for a descending set `m` of values from 13..6; for
every such set with no higher straight, `getStraightHigh` returns 5; at the score
level a five-high straight loses to a six-high straight and to every higher
straight, and beats every hand of a lower category (trips, two pair, pair,
high card); and on concrete 7-card hands the wheel evaluates to `[4, 5]` and
loses to a six-high straight. -/
theorem c8_wheel_five_high :
    (∀ m ∈ ([13, 12, 11, 10, 9, 8, 7, 6] : List Int).sublists,
        (¬ ∃ h ∈ ([6, 7, 8, 9, 10, 11, 12, 13, 14] : List Int),
            (h ∈ (14 :: m ++ [5, 4, 3, 2]) ∧ h - 1 ∈ (14 :: m ++ [5, 4, 3, 2]) ∧
              h - 2 ∈ (14 :: m ++ [5, 4, 3, 2]) ∧ h - 3 ∈ (14 :: m ++ [5, 4, 3, 2]) ∧
              h - 4 ∈ (14 :: m ++ [5, 4, 3, 2]))) →
          getStraightHigh (14 :: m ++ [5, 4, 3, 2]) = some 5) ∧
      (∀ h ∈ ([6, 7, 8, 9, 10, 11, 12, 13, 14] : List Int),
          compareScore [4, 5] [4, h] = -1) ∧
      (∀ c : Int, ∀ rest : List Int, c < 4 → compareScore [4, 5] (c :: rest) = 1) ∧
      evaluate7 [⟨"A", "s"⟩, ⟨"2", "c"⟩, ⟨"3", "d"⟩, ⟨"4", "h"⟩, ⟨"5", "s"⟩,
          ⟨"9", "c"⟩, ⟨"J", "d"⟩] = [4, 5] ∧
      evaluate7 [⟨"6", "s"⟩, ⟨"5", "c"⟩, ⟨"4", "d"⟩, ⟨"3", "h"⟩, ⟨"2", "s"⟩,
          ⟨"9", "c"⟩, ⟨"J", "d"⟩] = [4, 6] ∧
      compareScore
          (evaluate7 [⟨"A", "s"⟩, ⟨"2", "c"⟩, ⟨"3", "d"⟩, ⟨"4", "h"⟩, ⟨"5", "s"⟩,
            ⟨"9", "c"⟩, ⟨"J", "d"⟩])
          (evaluate7 [⟨"6", "s"⟩, ⟨"5", "c"⟩, ⟨"4", "d"⟩, ⟨"3", "h"⟩, ⟨"2", "s"⟩,
            ⟨"9", "c"⟩, ⟨"J", "d"⟩]) = -1 := by
  refine ⟨by decide, by decide, ?_, by decide, by decide, by decide⟩
  intro c rest hc
  have h4 : ¬ ((4 : Int) ≤ c) := by omega
  simp [compareScore, hc, h4]

/-! ## Claim C10 -/

theorem roundToHundredth_nonneg {q : ℚ} (h : 0 ≤ q) : 0 ≤ roundToHundredth q := by
  unfold roundToHundredth
  rw [ratFloor_eq_floor]
  have hf : (0 : ℤ) ≤ ⌊q * 100 + 1/2⌋ := Int.floor_nonneg.mpr (by linarith)
  exact div_nonneg (by exact_mod_cast hf) (by norm_num)

theorem blindPost_nonneg (stack blind : ℚ) :
    0 ≤ roundToHundredth (stack - min blind stack) :=
  roundToHundredth_nonneg (sub_nonneg.mpr (min_le_right blind stack))

theorem blindPost_short {stack blind : ℚ} (hs : Hund stack) (h : stack < blind) :
    roundToHundredth (min blind stack) = stack ∧
      roundToHundredth (stack - min blind stack) = 0 := by
  rw [min_eq_right h.le, sub_self]
  exact ⟨roundToHundredth_eq_self hs, roundToHundredth_eq_self hund_zero⟩

theorem blindPost_full {stack blind : ℚ} (hs : Hund stack) (hb : Hund blind)
    (h : blind ≤ stack) :
    roundToHundredth (min blind stack) = blind ∧
      roundToHundredth (stack - min blind stack) = stack - blind := by
  rw [min_eq_left h]
  exact ⟨roundToHundredth_eq_self hb, roundToHundredth_eq_self (hund_sub hs hb)⟩

/-- C10: posting blinds never makes a stack negative. After `postBlinds` both
stacks are ≥ 0 for every starting configuration; for a seat whose stack is
smaller than its nominal blind only the available amount is posted (its bet
is its whole previous stack and its stack becomes exactly 0), and otherwise
the full blind is posted (bet equals the blind, stack drops by exactly the
blind). The small blind goes to the dealer, the big blind to the other
seat. -/
theorem c10_blind_posting (s : HostState)
    (h1 : Hund s.game.stacks'.top) (h2 : Hund s.game.stacks'.bottom) :
    (0 ≤ (postBlinds s).game.stacks'.top ∧ 0 ≤ (postBlinds s).game.stacks'.bottom) ∧
      (s.game.stacks'.get (dealerOf s) < SB →
        (postBlinds s).game.bets.get (dealerOf s) = s.game.stacks'.get (dealerOf s) ∧
          (postBlinds s).game.stacks'.get (dealerOf s) = 0) ∧
      (SB ≤ s.game.stacks'.get (dealerOf s) →
        (postBlinds s).game.bets.get (dealerOf s) = SB ∧
          (postBlinds s).game.stacks'.get (dealerOf s) =
            s.game.stacks'.get (dealerOf s) - SB) ∧
      (s.game.stacks'.get (dealerOf s).other < BB →
        (postBlinds s).game.bets.get (dealerOf s).other =
            s.game.stacks'.get (dealerOf s).other ∧
          (postBlinds s).game.stacks'.get (dealerOf s).other = 0) ∧
      (BB ≤ s.game.stacks'.get (dealerOf s).other →
        (postBlinds s).game.bets.get (dealerOf s).other = BB ∧
          (postBlinds s).game.stacks'.get (dealerOf s).other =
            s.game.stacks'.get (dealerOf s).other - BB) := by
  by_cases hd : s.dealerOffset = 0
  all_goals
    first
      | (have hds : dealerOf s = Seat.top := by unfold dealerOf; rw [if_pos hd])
      | (have hds : dealerOf s = Seat.bottom := by unfold dealerOf; rw [if_neg hd])
  all_goals rw [hds]
  all_goals unfold postBlinds logAction dealerOf
  all_goals dsimp only
  · rw [if_pos hd]
    dsimp only [Seat.other, SeatMap.set, SeatMap.get]
    refine ⟨⟨blindPost_nonneg _ _, blindPost_nonneg _ _⟩, ?_, ?_, ?_, ?_⟩
    · exact fun h => blindPost_short h1 h
    · exact fun h => blindPost_full h1 hund_SB h
    · exact fun h => blindPost_short h2 h
    · exact fun h => blindPost_full h2 hund_BB h
  · rw [if_neg hd]
    dsimp only [Seat.other, SeatMap.set, SeatMap.get]
    refine ⟨⟨blindPost_nonneg _ _, blindPost_nonneg _ _⟩, ?_, ?_, ?_, ?_⟩
    · exact fun h => blindPost_short h2 h
    · exact fun h => blindPost_full h2 hund_SB h
    · exact fun h => blindPost_short h1 h
    · exact fun h => blindPost_full h1 hund_BB h

unseal Rat.mul Rat.add Rat.inv Rat.sub in
/-- Witness for C10: from the initial 25bb stacks, posting blinds leaves both
stacks non-negative, the dealer posts the full 0.5bb small blind and the
other seat the full 1bb big blind. -/
theorem c10_blind_posting_witness :
    ((0 ≤ (postBlinds (createInitialState 0)).game.stacks'.top ∧
        0 ≤ (postBlinds (createInitialState 0)).game.stacks'.bottom) ∧
      (SB ≤ (createInitialState 0).game.stacks'.get (dealerOf (createInitialState 0)) ∧
        (postBlinds (createInitialState 0)).game.bets.get
            (dealerOf (createInitialState 0)) = SB)) ∧
      (BB ≤ (createInitialState 0).game.stacks'.get
          (dealerOf (createInitialState 0)).other ∧
        (postBlinds (createInitialState 0)).game.bets.get
            (dealerOf (createInitialState 0)).other = BB) :=
  have hc := c10_blind_posting (createInitialState 0) ⟨2500, by decide⟩ ⟨2500, by decide⟩
  ⟨⟨hc.1, by decide, (hc.2.2.1 (by decide)).1⟩, by decide, (hc.2.2.2.2 (by decide)).1⟩

/-! ## Claim C7 -/

/-- C7: `processAction` is guarded. When it is not the given seat's turn, or
the hand's status is not `playing`, the whole host state is returned
unchanged (no log entry, no chip movement); when both preconditions hold the
corresponding betting-engine transition (`handleFold`, `handleCheck`,
`handleCall`, `handleBetRaise`) is applied. -/
theorem c7_processAction_guard (seat : Seat) (a : GameAction) (s : HostState) :
    ((s.toAct ≠ seat ∨ s.handResult.status ≠ .playing) → processAction seat a s = s) ∧
      (s.toAct = seat → s.handResult.status = .playing →
        processAction seat a s =
          match a with
          | .fold => handleFold seat s
          | .check => handleCheck seat s
          | .call => handleCall seat s
          | .betRaiseTo t => handleBetRaise seat t s) := by
  constructor
  · intro h
    unfold processAction
    by_cases h1 : s.toAct ≠ seat
    · rw [if_pos h1]
    · rcases h with h | h
      · exact absurd h h1
      · rw [if_neg h1, if_pos h]
  · intro h1 h2
    unfold processAction
    rw [if_neg (by simp [h1]), if_neg (by simp [h2])]

/-! ## Claim C9 -/


theorem processAction_noop_status {s : HostState} (seat : Seat) (a : GameAction)
    (h : s.handResult.status ≠ .playing) : processAction seat a s = s := by
  unfold processAction
  by_cases h1 : s.toAct ≠ seat
  · rw [if_pos h1]
  · rw [if_neg h1, if_pos h]

set_option maxHeartbeats 1000000 in
theorem handleShowHand_fields (seat : Seat) (s : HostState) :
    (handleShowHand seat s).gameOver = s.gameOver ∧
      (handleShowHand seat s).handResult = s.handResult ∧
      (handleShowHand seat s).game = s.game := by
  unfold handleShowHand logAction
  dsimp only
  repeat' split
  all_goals exact ⟨rfl, rfl, rfl⟩

set_option maxHeartbeats 1000000 in
theorem handleFold_gameOver (seat : Seat) (s : HostState) :
    (handleFold seat s).game.stacks'.top ≤ 0 ∨
        (handleFold seat s).game.stacks'.bottom ≤ 0 →
      (handleFold seat s).gameOver = true := by
  unfold handleFold logAction
  dsimp only
  repeat' split
  all_goals intro h
  all_goals first
    | rfl
    | exact absurd h (by assumption)

set_option maxHeartbeats 1000000 in
theorem showdownPayout_gameOver (w : Winner) (s : HostState) :
    (showdownPayout w s).game.stacks'.top ≤ 0 ∨
        (showdownPayout w s).game.stacks'.bottom ≤ 0 →
      (showdownPayout w s).gameOver = true := by
  unfold showdownPayout logAction
  dsimp only
  repeat' split
  all_goals intro h
  all_goals first
    | rfl
    | exact absurd h (by assumption)

theorem resolveShowdown_gameOver (s : HostState) :
    (resolveShowdown s).game.stacks'.top ≤ 0 ∨
        (resolveShowdown s).game.stacks'.bottom ≤ 0 →
      (resolveShowdown s).gameOver = true := by
  unfold resolveShowdown
  dsimp only
  exact showdownPayout_gameOver _ _

theorem applyOp_frozen {s : HostState} (op : HostOp)
    (h1 : s.gameOver = true) (h2 : s.handResult.status = .ended)
    (h3 : s.game.stacks'.top ≤ 0 ∨ s.game.stacks'.bottom ≤ 0) :
    (applyOp op s).gameOver = true ∧ (applyOp op s).handResult.status = .ended ∧
      ((applyOp op s).game.stacks'.top ≤ 0 ∨ (applyOp op s).game.stacks'.bottom ≤ 0) := by
  cases op
  case act seat a =>
    rw [applyOp, processAction_noop_status seat a (by simp [h2])]
    exact ⟨h1, h2, h3⟩
  case showHand seat =>
    obtain ⟨hg, hr, hga⟩ := handleShowHand_fields seat s
    rw [applyOp, hg, hr, hga]
    exact ⟨h1, h2, h3⟩
  case nextHand deal =>
    rw [applyOp]
    unfold autoNextHand
    rw [if_neg ?_]
    · exact ⟨h1, h2, h3⟩
    · rintro ⟨ht, hb⟩
      rcases h3 with h | h
      · exact absurd h (not_le.mpr ht)
      · exact absurd h (not_le.mpr hb)

theorem applyOps_frozen (ops : List HostOp) :
    ∀ s : HostState, s.gameOver = true → s.handResult.status = .ended →
      (s.game.stacks'.top ≤ 0 ∨ s.game.stacks'.bottom ≤ 0) →
        (applyOps ops s).gameOver = true ∧
          (applyOps ops s).handResult.status = .ended ∧
          ((applyOps ops s).game.stacks'.top ≤ 0 ∨
            (applyOps ops s).game.stacks'.bottom ≤ 0) := by
  induction ops with
  | nil => exact fun s h1 h2 h3 => ⟨h1, h2, h3⟩
  | cons op rest ih =>
    intro s h1 h2 h3
    obtain ⟨g1, g2, g3⟩ := applyOp_frozen op h1 h2 h3
    exact ih (applyOp op s) g1 g2 g3

/-- C9: the match freezes permanently once a hand ends with a busted stack.
From any host state with `gameOver` set, the hand ended and a stack at or
below 0, every sequence of host operations (seat actions, card shows, the
auto-next-hand timer) keeps `gameOver` true, keeps the hand ended (no hand
with status `playing` is ever produced again) and keeps the busted stack;
moreover the two ways a hand ends — a fold and showdown settlement — set
`gameOver` whenever they leave a stack at or below 0, and the single-player
`startNewHand` refuses outright to start a hand while its game is over. -/
theorem c9_game_over_freeze (ops : List HostOp) (s t : HostState) (seat : Seat)
    (sp : SPState)
    (h1 : s.gameOver = true) (h2 : s.handResult.status = .ended)
    (h3 : s.game.stacks'.top ≤ 0 ∨ s.game.stacks'.bottom ≤ 0) :
    ((applyOps ops s).gameOver = true ∧
        (applyOps ops s).handResult.status = .ended ∧
        ((applyOps ops s).game.stacks'.top ≤ 0 ∨
          (applyOps ops s).game.stacks'.bottom ≤ 0)) ∧
      ((handleFold seat t).game.stacks'.top ≤ 0 ∨
          (handleFold seat t).game.stacks'.bottom ≤ 0 →
        (handleFold seat t).gameOver = true) ∧
      ((resolveShowdown t).game.stacks'.top ≤ 0 ∨
          (resolveShowdown t).game.stacks'.bottom ≤ 0 →
        (resolveShowdown t).gameOver = true) ∧
      (sp.gameOver = true → startNewHand sp = sp) :=
  ⟨applyOps_frozen ops s h1 h2 h3, handleFold_gameOver seat t,
    resolveShowdown_gameOver t, fun hsp => by unfold startNewHand; rw [if_pos hsp]⟩


/-- Witness for C9: from the concrete frozen state, the timer plus a call
attempt leave the game over with the hand ended; fold and showdown settlement
from the frozen state keep `gameOver`; the single-player `startNewHand` is a
no-op on a game-over state. -/
theorem c9_game_over_freeze_witness :
    ((applyOps [HostOp.nextHand [], HostOp.act .top .call] frozenState).gameOver = true ∧
        (applyOps [HostOp.nextHand [], HostOp.act .top .call]
            frozenState).handResult.status = .ended ∧
        ((applyOps [HostOp.nextHand [], HostOp.act .top .call]
              frozenState).game.stacks'.top ≤ 0 ∨
          (applyOps [HostOp.nextHand [], HostOp.act .top .call]
              frozenState).game.stacks'.bottom ≤ 0)) ∧
      ((handleFold .top frozenState).game.stacks'.top ≤ 0 ∨
          (handleFold .top frozenState).game.stacks'.bottom ≤ 0 →
        (handleFold .top frozenState).gameOver = true) ∧
      ((resolveShowdown frozenState).game.stacks'.top ≤ 0 ∨
          (resolveShowdown frozenState).game.stacks'.bottom ≤ 0 →
        (resolveShowdown frozenState).gameOver = true) ∧
      (frozenSPState.gameOver = true → startNewHand frozenSPState = frozenSPState) :=
  c9_game_over_freeze [HostOp.nextHand [], HostOp.act .top .call] frozenState
    frozenState .top frozenSPState rfl rfl (Or.inl (by decide))

/-! ## Claim C5 -/

theorem callChips_exact {g : GameState} {seat : Seat}
    (hb : Hund (g.bets.get seat)) (hbo : Hund (g.bets.get seat.other))
    (hs : Hund (g.stacks'.get seat))
    (hstk : g.bets.get seat.other - g.bets.get seat ≤ g.stacks'.get seat) :
    callChips seat g = { g with
      bets := g.bets.set seat (g.bets.get seat.other),
      stacks' := g.stacks'.set seat
        (g.stacks'.get seat - (g.bets.get seat.other - g.bets.get seat)) } := by
  unfold callChips
  dsimp only
  rw [roundToHundredth_eq_self (hund_sub hbo hb),
    min_eq_left hstk, roundToHundredth_eq_self (hund_sub hbo hb),
    roundToHundredth_eq_self (hund_add hb (hund_sub hbo hb)),
    roundToHundredth_eq_self (hund_sub hs (hund_sub hbo hb)),
    if_neg (lt_irrefl _)]
  have hbb : g.bets.get seat + (g.bets.get seat.other - g.bets.get seat) =
      g.bets.get seat.other := by ring
  rw [hbb]

theorem handleCall_limp_fields {s : HostState} (h0 : s.street = 0)
    (hdl : s.lastAggressor = none) :
    (handleCall (dealerOf s) s).street = 0 ∧
      (handleCall (dealerOf s) s).toAct = (dealerOf s).other ∧
      (handleCall (dealerOf s) s).game = callChips (dealerOf s) s.game ∧
      (handleCall (dealerOf s) s).handResult = s.handResult ∧
      (handleCall (dealerOf s) s).actionsThisStreet = s.actionsThisStreet + 1 ∧
      (handleCall (dealerOf s) s).lastAggressor = none ∧
      (handleCall (dealerOf s) s).dealerOffset = s.dealerOffset ∧
      (handleCall (dealerOf s) s).checked = s.checked := by
  unfold handleCall logAction dealerOf
  dsimp only
  rw [if_pos h0, if_pos ⟨rfl, hdl⟩]
  exact ⟨h0, rfl, rfl, rfl, rfl, hdl, rfl, rfl⟩

theorem advanceStreet_flop_fields {s : HostState} (h0 : s.street = 0)
    (ht : 0 < s.game.stacks'.top) (hb : 0 < s.game.stacks'.bottom) :
    (advanceStreet s).street = 3 ∧
      (advanceStreet s).toAct = (dealerOf s).other ∧
      (advanceStreet s).game.pot = s.game.pot + s.game.bets.top + s.game.bets.bottom ∧
      (advanceStreet s).game.bets.top = 0 ∧
      (advanceStreet s).game.bets.bottom = 0 ∧
      (advanceStreet s).handResult = s.handResult ∧
      (advanceStreet s).game.stacks' = s.game.stacks' := by
  unfold advanceStreet dealerOf
  dsimp only
  rw [if_pos (Or.inl h0), if_pos h0,
    if_neg (fun h => by
      rcases h.1 with h1 | h1
      · exact absurd h1 (not_le.mpr ht)
      · exact absurd h1 (not_le.mpr hb))]
  exact ⟨rfl, rfl, rfl, rfl, rfl, rfl, rfl⟩

theorem handleCheck_closes_fields {s : HostState} (seat : Seat)
    (hbe : s.game.bets.top = s.game.bets.bottom)
    (ha : 1 ≤ s.actionsThisStreet) (h0 : s.street = 0)
    (ht : 0 < s.game.stacks'.top) (hb : 0 < s.game.stacks'.bottom) :
    (handleCheck seat s).street = 3 ∧
      (handleCheck seat s).toAct = (dealerOf s).other ∧
      (handleCheck seat s).game.pot = s.game.pot + s.game.bets.top + s.game.bets.bottom ∧
      (handleCheck seat s).game.bets.top = 0 ∧
      (handleCheck seat s).game.bets.bottom = 0 ∧
      (handleCheck seat s).handResult = s.handResult := by
  unfold handleCheck logAction
  dsimp only
  rw [if_pos (Or.inr ⟨hbe, by omega⟩)]
  obtain ⟨g1, g2, g3, g4, g5, g6, _⟩ := advanceStreet_flop_fields (s := { s with
    actionLog := s.actionLog ++
      [{ sequence := s.actionSequence, street := getStreetName s.street, seat := seat,
         text := "Checks" }],
    actionSequence := s.actionSequence + 1,
    checked := s.checked.set seat true,
    actionsThisStreet := s.actionsThisStreet + 1 }) h0 ht hb
  exact ⟨g1, g2, g3, g4, g5, g6⟩

theorem dealerOf_eq_of_offset {x y : HostState} (h : x.dealerOffset = y.dealerOffset) :
    dealerOf x = dealerOf y := by
  unfold dealerOf
  rw [h]

/-- C5: a preflop limp checks through to the flop. In any preflop state with
only the blinds posted (dealer small blind 0.5bb, non-dealer big blind 1bb,
no raise so far), if the dealer calls and the big blind then checks, the
street closes: both bets are pulled into the pot (which grows by exactly
2bb), the street advances to the flop and the non-dealer acts first, with
the hand still playing. -/
theorem c5_preflop_limp_check (s : HostState)
    (h0 : s.street = 0) (hst : s.handResult.status = .playing)
    (hta : s.toAct = dealerOf s) (hdl : s.lastAggressor = none)
    (hbd : s.game.bets.get (dealerOf s) = SB)
    (hbn : s.game.bets.get (dealerOf s).other = BB)
    (hd1 : Hund (s.game.stacks'.get (dealerOf s)))
    (hsd : SB < s.game.stacks'.get (dealerOf s))
    (hsn : 0 < s.game.stacks'.get (dealerOf s).other) :
    (processAction (dealerOf s).other .check
        (processAction (dealerOf s) .call s)).street = 3 ∧
      (processAction (dealerOf s).other .check
          (processAction (dealerOf s) .call s)).toAct = (dealerOf s).other ∧
      (processAction (dealerOf s).other .check
          (processAction (dealerOf s) .call s)).game.bets.top = 0 ∧
      (processAction (dealerOf s).other .check
          (processAction (dealerOf s) .call s)).game.bets.bottom = 0 ∧
      (processAction (dealerOf s).other .check
          (processAction (dealerOf s) .call s)).game.pot = s.game.pot + 2 * BB ∧
      (processAction (dealerOf s).other .check
          (processAction (dealerOf s) .call s)).handResult.status = .playing := by
  have hpa1 : processAction (dealerOf s) .call s = handleCall (dealerOf s) s := by
    unfold processAction
    rw [if_neg (by simp [hta]), if_neg (by simp [hst])]
  obtain ⟨f1, f2, f3, f4, f5, f6, f7, f8⟩ := handleCall_limp_fields h0 hdl
  have hgame : (handleCall (dealerOf s) s).game = { s.game with
      bets := s.game.bets.set (dealerOf s) (s.game.bets.get (dealerOf s).other),
      stacks' := s.game.stacks'.set (dealerOf s)
        (s.game.stacks'.get (dealerOf s) -
          (s.game.bets.get (dealerOf s).other - s.game.bets.get (dealerOf s))) } := by
    rw [f3]
    refine callChips_exact (hbd ▸ hund_SB) (hbn ▸ hund_BB) hd1 ?_
    rw [hbd, hbn]
    have h := hsd
    simp only [SB, BB] at h ⊢
    linarith
  have hpa2 : processAction (dealerOf s).other .check (handleCall (dealerOf s) s) =
      handleCheck (dealerOf s).other (handleCall (dealerOf s) s) := by
    unfold processAction
    rw [if_neg (by simp [f2]), if_neg (by simp [f4, hst])]
  have hdlr : dealerOf (handleCall (dealerOf s) s) = dealerOf s :=
    dealerOf_eq_of_offset f7
  have hsb : SB < BB := by unfold SB BB; norm_num
  by_cases hoff : s.dealerOffset = 0
  all_goals
    first
      | (have hseat : dealerOf s = Seat.top := by unfold dealerOf; rw [if_pos hoff])
      | (have hseat : dealerOf s = Seat.bottom := by unfold dealerOf; rw [if_neg hoff])
  all_goals rw [hseat] at hpa1 hpa2 hdlr hgame f1 f2 f3 f4 f5 hbd hbn hd1 hsd hsn ⊢
  all_goals rw [hpa1, hpa2]
  all_goals dsimp only [Seat.other, SeatMap.set, SeatMap.get] at hgame hbd hbn hsd hsn ⊢
  · obtain ⟨g1, g2, g3, g4, g5, g6⟩ :=
      handleCheck_closes_fields (s := handleCall .top s) .bottom
        (by rw [hgame])
        (by rw [f5]; omega) f1
        (by rw [hgame]; dsimp only; rw [hbn, hbd]
            simp only [SB, BB] at hsd ⊢; linarith)
        (by rw [hgame]; dsimp only; exact hsn)
    rw [hdlr] at g2
    refine ⟨g1, g2, g4, g5, ?_, by rw [g6, f4, hst]⟩
    rw [g3, hgame]
    dsimp only
    rw [hbn]
    ring
  · obtain ⟨g1, g2, g3, g4, g5, g6⟩ :=
      handleCheck_closes_fields (s := handleCall .bottom s) .top
        (by rw [hgame])
        (by rw [f5]; omega) f1
        (by rw [hgame]; dsimp only; exact hsn)
        (by rw [hgame]; dsimp only; rw [hbn, hbd]
            simp only [SB, BB] at hsd ⊢; linarith)
    rw [hdlr] at g2
    refine ⟨g1, g2, g4, g5, ?_, by rw [g6, f4, hst]⟩
    rw [g3, hgame]
    dsimp only
    rw [hbn]
    ring

unseal Rat.mul Rat.add Rat.inv Rat.sub in
/-- Witness for C5: from a freshly started hand (initial 25bb stacks, blinds
posted), the dealer's call followed by the big blind's check advances to the
flop with the non-dealer to act and a 2bb pot. -/
theorem c5_preflop_limp_check_witness :
    (processAction (dealerOf (startHand [] (createInitialState 0))).other .check
        (processAction (dealerOf (startHand [] (createInitialState 0))) .call
          (startHand [] (createInitialState 0)))).street = 3 ∧
      (processAction (dealerOf (startHand [] (createInitialState 0))).other .check
          (processAction (dealerOf (startHand [] (createInitialState 0))) .call
            (startHand [] (createInitialState 0)))).toAct =
        (dealerOf (startHand [] (createInitialState 0))).other ∧
      (processAction (dealerOf (startHand [] (createInitialState 0))).other .check
          (processAction (dealerOf (startHand [] (createInitialState 0))) .call
            (startHand [] (createInitialState 0)))).game.bets.top = 0 ∧
      (processAction (dealerOf (startHand [] (createInitialState 0))).other .check
          (processAction (dealerOf (startHand [] (createInitialState 0))) .call
            (startHand [] (createInitialState 0)))).game.bets.bottom = 0 ∧
      (processAction (dealerOf (startHand [] (createInitialState 0))).other .check
          (processAction (dealerOf (startHand [] (createInitialState 0))) .call
            (startHand [] (createInitialState 0)))).game.pot =
        (startHand [] (createInitialState 0)).game.pot + 2 * BB ∧
      (processAction (dealerOf (startHand [] (createInitialState 0))).other .check
          (processAction (dealerOf (startHand [] (createInitialState 0))) .call
            (startHand [] (createInitialState 0)))).handResult.status = .playing :=
  c5_preflop_limp_check (startHand [] (createInitialState 0))
    (by decide) (by decide) (by decide) (by decide) (by decide) (by decide)
    ⟨2450, by decide⟩ (by decide) (by decide)

/-! ## Claim C4 -/


unseal Rat.mul Rat.add Rat.inv Rat.sub in
/-- C4: facing a 4bb bet with a 2bb last raise size, an attempted raise-to of
5bb. The single-player `actBetRaiseTo` clamps the target into
`[minLegalRaise, maxEffectiveBet]`: the bet becomes 6bb (= 4 + 2), an
oversized 100bb target is capped at the 50bb effective maximum, and even a
3bb target below the opponent's bet is clamped up to the 6bb minimum. The
authoritative host's `handleBetRaise`, however, applies no minimum clamp:
the same raise-to 5bb goes through at 5bb, and its `lastRaiseSize` becomes
the 1bb increment — the host diverges from the claimed clamping rule. -/
theorem c4_raise_clamping :
    ((actBetRaiseTo .bottom 5 c4SPState).game.bets.bottom = 6 ∧
        (actBetRaiseTo .bottom 5 c4SPState).game.stacks'.bottom = 44 ∧
        (actBetRaiseTo .bottom 5 c4SPState).lastRaiseSize = 2) ∧
      (actBetRaiseTo .bottom 100 c4SPState).game.bets.bottom = 50 ∧
      (actBetRaiseTo .bottom 3 c4SPState).game.bets.bottom = 6 ∧
      ((processAction .bottom (.betRaiseTo 5) c4HostState).game.bets.bottom = 5 ∧
        (processAction .bottom (.betRaiseTo 5) c4HostState).game.stacks'.bottom = 45 ∧
        (processAction .bottom (.betRaiseTo 5) c4HostState).lastRaiseSize = 1) := by
  refine ⟨⟨by decide, by decide, by decide⟩, by decide, by decide,
    by decide, by decide, by decide⟩

/-! ## Claim C6 -/


unseal Rat.mul Rat.add Rat.inv Rat.sub in
/-- Counterexample to C6 as stated: a short-stack bet/raise attempt is NOT
reclassified to a call. With a 3bb stack facing a 10bb bet, a raise-to-12
attempt in the single-player engine goes through the bet/raise path for the
3bb all-in: the acting seat is recorded as the aggressor with a (negative)
last raise size of −7bb and no call is recorded; the authoritative host's
`handleBetRaise` likewise records the seat as aggressor. -/
theorem c6_all_in_call_counterexample :
    (actBetRaiseTo .bottom 12 c6SPState).game.bets.bottom = 3 ∧
      (actBetRaiseTo .bottom 12 c6SPState).lastAggressor = some Seat.bottom ∧
      (actBetRaiseTo .bottom 12 c6SPState).lastRaiseSize = -7 ∧
      (actBetRaiseTo .bottom 12 c6SPState).sawCallThisStreet = false ∧
      (processAction .bottom (.betRaiseTo 12) c6HostState).lastAggressor =
        some Seat.bottom := by
  refine ⟨by decide, by decide, by decide, by decide, by decide⟩

unseal Rat.mul Rat.add Rat.inv Rat.sub in
/-- C6 (amended): a short-stack CALL commits only the remaining stack as an
all-in call with the opponent's unmatched excess refunded, and the board
then runs out to the river with the hand resolved by showdown — but a
short-stack bet/raise attempt is not reclassified to a call. With a 3bb
stack facing a 10bb bet: the host call moves 3bb in, refunds 7bb to the
bettor (bets 3/3, stacks 44/0), runs the street out to 5 and ends the hand
by showdown; the single-player `actCall` produces the same chip state and
marks the all-in call. -/
theorem c6_all_in_call :
    ((callChips .bottom c6HostState.game).bets.top = 3 ∧
        (callChips .bottom c6HostState.game).bets.bottom = 3 ∧
        (callChips .bottom c6HostState.game).stacks'.top = 44 ∧
        (callChips .bottom c6HostState.game).stacks'.bottom = 0) ∧
      ((processAction .bottom .call c6HostState).street = 5 ∧
        (processAction .bottom .call c6HostState).handResult.status = .ended ∧
        (processAction .bottom .call c6HostState).handResult.reason =
          some EndReason.showdown) ∧
      ((actCall .bottom c6SPState).game.bets.top = 3 ∧
        (actCall .bottom c6SPState).game.bets.bottom = 3 ∧
        (actCall .bottom c6SPState).game.stacks'.top = 44 ∧
        (actCall .bottom c6SPState).game.stacks'.bottom = 0 ∧
        (actCall .bottom c6SPState).allInCallThisHand = true) := by
  refine ⟨⟨by decide, by decide, by decide, by decide⟩,
    ⟨by decide, by decide, by decide⟩,
    by decide, by decide, by decide, by decide, by decide⟩
